import Mathlib

/-!
Verification of the H-UDP dual-channel transport protocol
(`src/protocol/packet.py`, `src/protocol/sr_sender.py`,
`src/protocol/sr_receiver.py`) against its natural-language
specification.

The Python source is shallowly embedded:
* byte strings become `List Nat` (each element a byte value);
* Python dicts keyed by sequence number become association lists
  (`List (Nat × α)`), compared through `List.lookup`, with insertion
  replacing any previous binding — dict iteration order is never
  semantically relevant in the source;
* Python sets become `List Nat` queried with `List.contains`;
* wall-clock reads (`time.time()`) become explicit `now` parameters;
  they never influence control flow in the embedded operations except
  through the abstractions documented at each definition;
* exceptions become explicit result constructors;
* `threading.Timer` objects are modelled by recording, per sequence
  number, the interval the timer was armed with; a timer firing is an
  explicit step (`SRSender.on_timeout`), and the receiver's periodic
  skip-check thread is an explicit nondeterministic step
  (`SRReceiver.check_skip`).
-/

/-! ## packet.py -/

def CHANNEL_RELIABLE : Nat := 0x00
def CHANNEL_UNRELIABLE : Nat := 0x01
def PACKET_TYPE_ACK : Nat := 0x02

def MAX_PAYLOAD_SIZE : Nat := 1391
def MAX_SEQ_NUM : Nat := 65536

/-- Big-endian 2-byte encoding of a 16-bit field, as produced by
`struct.pack` format `H`. -/
def toBytes2 (x : Nat) : List Nat := [x / 256 % 256, x % 256]

/-- Big-endian 4-byte encoding of a 32-bit field, as produced by
`struct.pack` format `I`. -/
def toBytes4 (x : Nat) : List Nat :=
  [x / 16777216 % 256, x / 65536 % 256, x / 256 % 256, x % 256]

/-- `encode_data_packet(channel_type, seq_no, payload)`.

The source raises `ValueError` when the payload exceeds
`MAX_PAYLOAD_SIZE` (modelled by `none`), reads the wall clock as
`int(time.time() * 1000) & 0xFFFFFFFF` (the clock read is the explicit
`now_ms` argument; the mask is the `% 4294967296`), and packs the
header with `struct.pack("!BHIH", channel_type, seq_no & 0xFFFF,
timestamp, len(payload))` followed by the payload bytes.  The
`channel_type` byte is written as passed; every call site passes
`0x00` or `0x01`, which are valid `B` values. -/
def encode_data_packet (channel_type seq_no now_ms : Nat)
    (payload : List Nat) : Option (List Nat) :=
  if payload.length > MAX_PAYLOAD_SIZE then none
  else
    let timestamp := now_ms % 4294967296
    some ([channel_type] ++ toBytes2 (seq_no % 65536) ++ toBytes4 timestamp
      ++ toBytes2 payload.length ++ payload)

structure DataPacket where
  channel_type : Nat
  seq_no : Nat
  timestamp : Nat
  payload : List Nat
deriving DecidableEq

/-- `decode_data_packet(packet_bytes)`.

Raises `ValueError` (modelled by `none`) when the buffer is shorter
than the 9-byte header, unpacks `!BHIH` from the first 9 bytes, takes
`packet_bytes[9:9+payload_len]` as payload, and raises when that slice
is shorter than `payload_len`. -/
def decode_data_packet (b : List Nat) : Option DataPacket :=
  if b.length < 9 then none
  else
    let channel_type := b.getD 0 0
    let seq_no := b.getD 1 0 * 256 + b.getD 2 0
    let timestamp :=
      ((b.getD 3 0 * 256 + b.getD 4 0) * 256 + b.getD 5 0) * 256 + b.getD 6 0
    let payload_len := b.getD 7 0 * 256 + b.getD 8 0
    let payload := (b.drop 9).take payload_len
    if payload.length ≠ payload_len then none
    else some { channel_type := channel_type, seq_no := seq_no,
                timestamp := timestamp, payload := payload }

/-- `encode_ack_packet(ack_no, timestamp)`:
`struct.pack("!BHI", PACKET_TYPE_ACK, ack_no & 0xFFFF,
timestamp & 0xFFFFFFFF)`. -/
def encode_ack_packet (ack_no timestamp : Nat) : List Nat :=
  [PACKET_TYPE_ACK] ++ toBytes2 (ack_no % 65536)
    ++ toBytes4 (timestamp % 4294967296)

structure AckPacket where
  ack_no : Nat
  timestamp : Nat
deriving DecidableEq

/-- `decode_ack_packet(packet_bytes)`: fails when shorter than 7 bytes
or when the first byte is not `PACKET_TYPE_ACK`. -/
def decode_ack_packet (b : List Nat) : Option AckPacket :=
  if b.length < 7 then none
  else if b.getD 0 0 ≠ PACKET_TYPE_ACK then none
  else some { ack_no := b.getD 1 0 * 256 + b.getD 2 0,
              timestamp := ((b.getD 3 0 * 256 + b.getD 4 0) * 256
                + b.getD 5 0) * 256 + b.getD 6 0 }

/-! ## Modular sequence arithmetic

Python computes `(a - b) % MAX_SEQ_NUM` on unbounded signed integers,
whose result is always in `[0, MAX_SEQ_NUM)`.  On the `Nat` embedding
we add `2 * MAX_SEQ_NUM` (a multiple of the modulus exceeding every
subtrahend that occurs: every call passes `b < MAX_SEQ_NUM + 32`, and
`a < MAX_SEQ_NUM`) so that the natural-number subtraction never
truncates and the value agrees with Python's. -/

def pymod_sub (a b : Nat) : Nat := (a + 2 * MAX_SEQ_NUM - b) % MAX_SEQ_NUM

/-- `SRReceiver._seq_less_than`: `(a - b) % MAX_SEQ_NUM > MAX_SEQ_NUM // 2`. -/
def _seq_less_than (seq_a seq_b : Nat) : Bool :=
  pymod_sub seq_a seq_b > MAX_SEQ_NUM / 2

/-- `SRReceiver._seq_greater_equal`: `(a - b) % MAX_SEQ_NUM < MAX_SEQ_NUM // 2`. -/
def _seq_greater_equal (seq_a seq_b : Nat) : Bool :=
  pymod_sub seq_a seq_b < MAX_SEQ_NUM / 2

/-! ## Claims C3, C9, C10 about the codec and the comparators -/

/-- **C3.** For every channel in `{0x00, 0x01}`, every `seq` in
`[0, 65535]`, and every payload of at most 1391 bytes,
`decode_data_packet (encode_data_packet channel seq payload)` yields
exactly that channel, seq and payload, with the 32-bit timestamp field
(the masked clock read) round-tripping losslessly; and for every
16-bit `ack_no` and 32-bit `ts`,
`decode_ack_packet (encode_ack_packet ack_no ts) = (ack_no, ts)`. -/
theorem codec_roundtrip (ch seq now_ms : Nat) (payload : List Nat)
    (hch : ch = 0 ∨ ch = 1) (hseq : seq < 65536)
    (hlen : payload.length ≤ MAX_PAYLOAD_SIZE) :
    (encode_data_packet ch seq now_ms payload).bind decode_data_packet
      = some { channel_type := ch, seq_no := seq,
               timestamp := now_ms % 4294967296, payload := payload }
    ∧ ∀ ack ts : Nat, ack < 65536 → ts < 4294967296 →
        decode_ack_packet (encode_ack_packet ack ts)
          = some { ack_no := ack, timestamp := ts } := by
  have hlen' : payload.length ≤ 1391 := hlen
  constructor
  · have henc : encode_data_packet ch seq now_ms payload
        = some (ch :: (seq / 256 % 256) :: (seq % 256)
            :: (now_ms % 4294967296 / 16777216 % 256)
            :: (now_ms % 4294967296 / 65536 % 256)
            :: (now_ms % 4294967296 / 256 % 256)
            :: (now_ms % 4294967296 % 256)
            :: (payload.length / 256 % 256) :: (payload.length % 256)
            :: payload) := by
      rw [encode_data_packet, if_neg (by omega)]
      simp [toBytes2, toBytes4, Nat.mod_mod_of_dvd]
      omega
    rw [henc]
    show decode_data_packet _ = _
    rw [decode_data_packet]
    have hL : (ch :: (seq / 256 % 256) :: (seq % 256)
        :: (now_ms % 4294967296 / 16777216 % 256)
        :: (now_ms % 4294967296 / 65536 % 256)
        :: (now_ms % 4294967296 / 256 % 256)
        :: (now_ms % 4294967296 % 256)
        :: (payload.length / 256 % 256) :: (payload.length % 256)
        :: payload).length = 9 + payload.length := by
      simp; omega
    rw [if_neg (by rw [hL]; omega)]
    simp only [List.getD_cons_zero, List.getD_cons_succ, List.drop_succ_cons,
      List.drop_zero]
    have hpl : payload.length / 256 % 256 * 256 + payload.length % 256
        = payload.length := by
      omega
    rw [hpl, List.take_length, if_neg (by simp)]
    have hts : now_ms % 4294967296 < 4294967296 := Nat.mod_lt _ (by norm_num)
    congr 1
    refine DataPacket.mk.injEq _ _ _ _ _ _ _ _ |>.mpr ?_
    refine ⟨rfl, by omega, by omega, rfl⟩
  · intro ack ts hack hts
    have henc : encode_ack_packet ack ts
        = 2 :: (ack / 256 % 256) :: (ack % 256)
          :: (ts / 16777216 % 256) :: (ts / 65536 % 256)
          :: (ts / 256 % 256) :: (ts % 256) :: [] := by
      rw [encode_ack_packet]
      simp [toBytes2, toBytes4, PACKET_TYPE_ACK]
      constructor
      · omega
      · constructor
        · omega
        · omega
    rw [henc, decode_ack_packet]
    rw [if_neg (by simp)]
    simp only [List.getD_cons_zero, List.getD_cons_succ]
    rw [if_neg (by simp [PACKET_TYPE_ACK])]
    congr 1
    refine AckPacket.mk.injEq _ _ _ _ |>.mpr ?_
    refine ⟨by omega, by omega⟩

/-- Witness for `codec_roundtrip` at a concrete input. -/
theorem codec_roundtrip_witness :
    (encode_data_packet 0 7 123 [1, 2, 3]).bind decode_data_packet
      = some { channel_type := 0, seq_no := 7,
               timestamp := 123 % 4294967296, payload := [1, 2, 3] }
    ∧ ∀ ack ts : Nat, ack < 65536 → ts < 4294967296 →
        decode_ack_packet (encode_ack_packet ack ts)
          = some { ack_no := ack, timestamp := ts } :=
  codec_roundtrip 0 7 123 [1, 2, 3] (Or.inl rfl) (by omega) (by decide)

/-- The length-9 payload-length field named by claim C9, read exactly
as `decode_data_packet` reads it. -/
def payload_len_field (b : List Nat) : Nat := b.getD 7 0 * 256 + b.getD 8 0

/-- **C9 counterexample.** The claim states decoding fails whenever the
`payload_len` field disagrees with the number of bytes remaining after
the header.  On the 10-byte buffer of all zeroes the field is 0 while
1 byte remains, yet decoding succeeds (the source only checks that the
payload slice is not shorter than the field; extra trailing bytes are
ignored). -/
theorem decode_extra_bytes_counterexample :
    payload_len_field [0, 0, 0, 0, 0, 0, 0, 0, 0, 0] ≠
        [0, 0, 0, 0, 0, 0, 0, 0, 0, 0].length - 9
    ∧ decode_data_packet [0, 0, 0, 0, 0, 0, 0, 0, 0, 0]
        = some { channel_type := 0, seq_no := 0, timestamp := 0,
                 payload := [] } := by
  constructor
  · decide
  · decide

/-- **C9 (amended).** `decode_data_packet b` fails if and only if `b`
is shorter than the 9-byte fixed header or the `payload_len` field
exceeds the number of bytes remaining after the header (so a buffer
longer than `9 + payload_len` decodes successfully, the trailing bytes
being ignored); otherwise it succeeds. -/
theorem decode_failure_iff (b : List Nat) :
    decode_data_packet b = none
      ↔ (b.length < 9 ∨ b.length - 9 < payload_len_field b) := by
  rw [decode_data_packet]
  by_cases h9 : b.length < 9
  · simp [h9]
  · rw [if_neg h9]
    have hlen : ((b.drop 9).take (b.getD 7 0 * 256 + b.getD 8 0)).length
        = min (b.getD 7 0 * 256 + b.getD 8 0) (b.length - 9) := by
      simp
    by_cases hgt : b.length - 9 < b.getD 7 0 * 256 + b.getD 8 0
    · rw [if_pos (by rw [hlen]; omega)]
      simp only [payload_len_field]
      exact ⟨fun _ => Or.inr hgt, fun _ => by trivial⟩
    · rw [if_neg (by rw [hlen]; omega)]
      simp only [payload_len_field]
      constructor
      · intro h
        exact absurd h (by simp)
      · intro h
        rcases h with h | h
        · exact absurd h h9
        · exact absurd h hgt

/-- Witness for `decode_failure_iff` at a concrete input: the empty
buffer fails to decode. -/
theorem decode_failure_iff_witness :
    decode_data_packet [] = none ↔
      (List.length ([] : List Nat) < 9
        ∨ List.length ([] : List Nat) - 9 < payload_len_field []) :=
  decode_failure_iff []

/-- **C10.** The two modular comparators are not exhaustive: whenever
`(a - b) mod 65536 = 32768` both `_seq_less_than a b` and
`_seq_greater_equal a b` are false; and away from that midpoint
exactly one of the two holds. -/
theorem seq_comparators_midpoint (a b : Nat)
    (ha : a < 65536) (hb : b < 65536) :
    (pymod_sub a b = 32768 →
        _seq_less_than a b = false ∧ _seq_greater_equal a b = false)
    ∧ (pymod_sub a b ≠ 32768 →
        (_seq_less_than a b = true ↔ _seq_greater_equal a b = false)) := by
  have hd : pymod_sub a b < 65536 := by
    unfold pymod_sub MAX_SEQ_NUM
    omega
  constructor
  · intro h
    unfold _seq_less_than _seq_greater_equal MAX_SEQ_NUM
    constructor
    · simp [h]
    · simp [h]
  · intro h
    unfold _seq_less_than _seq_greater_equal MAX_SEQ_NUM
    constructor
    · intro hlt
      simp only [decide_eq_true_eq] at hlt
      simp only [decide_eq_false_iff_not]
      omega
    · intro hge
      simp only [decide_eq_false_iff_not] at hge
      simp only [decide_eq_true_eq]
      have : MAX_SEQ_NUM = 65536 := rfl
      unfold pymod_sub MAX_SEQ_NUM at h hd hge ⊢
      omega

/-- Witness for `seq_comparators_midpoint` at the midpoint pair
`(32768, 0)`. -/
theorem seq_comparators_midpoint_witness :
    (pymod_sub 32768 0 = 32768 →
        _seq_less_than 32768 0 = false ∧ _seq_greater_equal 32768 0 = false)
    ∧ (pymod_sub 32768 0 ≠ 32768 →
        (_seq_less_than 32768 0 = true ↔ _seq_greater_equal 32768 0 = false)) :=
  seq_comparators_midpoint 32768 0 (by omega) (by omega)

/-! ## Association-list helpers

Python dicts keyed by sequence number are embedded as association
lists queried through `List.lookup`; `alist_insert` models dict
assignment (replacing any previous binding) and `alist_erase` models
`del`.  Dict ordering is never semantically relevant in the source. -/

def alist_erase {α : Type} (k : Nat) (l : List (Nat × α)) : List (Nat × α) :=
  l.filter (fun p => p.1 != k)

def alist_insert {α : Type} (k : Nat) (v : α) (l : List (Nat × α)) :
    List (Nat × α) :=
  (k, v) :: alist_erase k l

theorem lookup_cons_eq {α : Type} (x k : Nat) (v : α) (t : List (Nat × α)) :
    List.lookup x ((k, v) :: t) = if x = k then some v else List.lookup x t := by
  by_cases h : x = k
  · subst h
    simp [List.lookup]
  · have hb : (x == k) = false := by simp [h]
    simp [List.lookup, hb, h]

theorem alist_erase_cons_self {α : Type} (k : Nat) (v : α)
    (t : List (Nat × α)) : alist_erase k ((k, v) :: t) = alist_erase k t := by
  simp [alist_erase, List.filter_cons]

theorem alist_erase_cons_ne {α : Type} (k k' : Nat) (v : α)
    (t : List (Nat × α)) (h : ¬k' = k) :
    alist_erase k ((k', v) :: t) = (k', v) :: alist_erase k t := by
  have hb : (k' != k) = true := by simpa using h
  simp [alist_erase, List.filter_cons, hb]

theorem lookup_alist_erase {α : Type} (k x : Nat) (l : List (Nat × α)) :
    (alist_erase k l).lookup x = if x = k then none else l.lookup x := by
  induction l with
  | nil =>
    by_cases hx : x = k <;> simp [alist_erase, List.lookup, hx]
  | cons hd tl ih =>
    obtain ⟨k', v'⟩ := hd
    by_cases hk : k' = k
    · subst hk
      rw [alist_erase_cons_self, ih]
      by_cases hx : x = k'
      · simp [hx]
      · rw [if_neg hx, if_neg hx, lookup_cons_eq, if_neg hx]
    · rw [alist_erase_cons_ne _ _ _ _ hk, lookup_cons_eq, lookup_cons_eq]
      by_cases hx : x = k'
      · subst hx
        rw [if_pos rfl, if_neg hk, if_pos rfl]
      · rw [if_neg hx, if_neg hx, ih]

theorem lookup_alist_insert {α : Type} (k x : Nat) (v : α)
    (l : List (Nat × α)) :
    (alist_insert k v l).lookup x = if x = k then some v else l.lookup x := by
  unfold alist_insert
  rw [lookup_cons_eq]
  by_cases hx : x = k
  · simp [hx]
  · rw [if_neg hx, if_neg hx, lookup_alist_erase, if_neg hx]

theorem alist_erase_length_le {α : Type} (k : Nat) (l : List (Nat × α)) :
    (alist_erase k l).length ≤ l.length := by
  unfold alist_erase
  exact List.length_filter_le _ _

theorem alist_erase_length_lt {α : Type} (k : Nat) (l : List (Nat × α))
    (h : (l.lookup k).isSome) : (alist_erase k l).length < l.length := by
  induction l with
  | nil => simp [List.lookup] at h
  | cons hd tl ih =>
    obtain ⟨k', v'⟩ := hd
    by_cases hk : k' = k
    · subst hk
      rw [alist_erase_cons_self]
      have h2 := alist_erase_length_le k' tl
      simp only [List.length_cons]
      omega
    · rw [lookup_cons_eq] at h
      rw [if_neg (fun he => hk he.symm)] at h
      have h3 := ih h
      rw [alist_erase_cons_ne _ _ _ _ hk]
      simp only [List.length_cons]
      omega

/-! ## sr_sender.py -/

def WINDOW_SIZE : Nat := 32

/-- Module constant `RETRY_INTERVAL = 0.200` (seconds), modelled as the
rational this decimal literal denotes. -/
def RETRY_INTERVAL : ℚ := 200 / 1000

def MAX_RETRIES : Nat := 1

/-- `PacketInfo(packet_bytes)`.  Wall-clock fields carry the explicit
`now` of the constructing call. -/
structure PacketInfo where
  packet : List Nat
  first_send_time : Nat
  last_send_time : Nat
  retry_count : Nat
  acked : Bool
  skipped : Bool
deriving DecidableEq

/-- `SRSender` mutable state.  `socket` and `remote_addr` are external
I/O handles; transmissions are returned as explicit outputs instead.
`timers` records, per sequence number, the interval (in seconds) the
currently armed `threading.Timer` was constructed with. -/
structure SRSenderState where
  sender_timeout : ℚ
  send_base : Nat
  next_seq : Nat
  send_buffer : List (Nat × PacketInfo)
  acked : List Nat
  timers : List (Nat × ℚ)
deriving DecidableEq

/-- `SRSender.__init__(socket, remote_addr, sender_timeout)`. -/
def initSRSender (sender_timeout : ℚ) : SRSenderState :=
  { sender_timeout := sender_timeout, send_base := 0, next_seq := 0,
    send_buffer := [], acked := [], timers := [] }

/-- One iteration bound for `_slide_window`'s while-loop.  The Python
loop advances `send_base` at most `(next_seq - send_base) %
MAX_SEQ_NUM ≤ MAX_SEQ_NUM` times before the `send_base == next_seq`
break fires, so `MAX_SEQ_NUM` fuel makes the embedding exact. -/
def slide_window_fuel (fuel : Nat) (s : SRSenderState) : SRSenderState :=
  match fuel with
  | 0 => s
  | fuel + 1 =>
    if s.acked.contains s.send_base
        || !(s.send_buffer.lookup s.send_base).isSome then
      if s.send_base == s.next_seq then s
      else slide_window_fuel fuel
        { s with send_base := (s.send_base + 1) % MAX_SEQ_NUM }
    else s

/-- `SRSender._slide_window`. -/
def _slide_window (s : SRSenderState) : SRSenderState :=
  slide_window_fuel MAX_SEQ_NUM s

/-- Result of `SRSender.send`: `windowFull` is the `return None`
sentinel, `sent` the returned sequence number, `payloadTooLarge` the
`ValueError` raised by `encode_data_packet`, `socketError` an
`OSError` raised by `socket.sendto` (both exceptions propagate with
the sender state untouched, since they are raised before any state
mutation). -/
inductive SendResult where
  | windowFull
  | sent (seq_no : Nat)
  | payloadTooLarge
  | socketError
deriving DecidableEq

/-- `SRSender.send(payload)`.  `io_ok` is false when the unguarded
`socket.sendto` call raises. -/
def SRSender.send (s : SRSenderState) (payload : List Nat) (now : Nat)
    (io_ok : Bool) : SRSenderState × SendResult :=
  if pymod_sub s.next_seq s.send_base ≥ WINDOW_SIZE then
    (s, SendResult.windowFull)
  else
    match encode_data_packet CHANNEL_RELIABLE s.next_seq now payload with
    | none => (s, SendResult.payloadTooLarge)
    | some packet_bytes =>
      if io_ok = false then (s, SendResult.socketError)
      else
        ({ s with
            send_buffer := alist_insert s.next_seq
              { packet := packet_bytes, first_send_time := now,
                last_send_time := now, retry_count := 0,
                acked := false, skipped := false } s.send_buffer,
            timers := alist_insert s.next_seq RETRY_INTERVAL s.timers,
            next_seq := (s.next_seq + 1) % MAX_SEQ_NUM },
          SendResult.sent s.next_seq)

/-- `SRSender.on_ack(ack_no)`.  The source sets the doomed entry's
`acked` flag and computes an RTT for logging just before deleting the
entry; neither is observable afterwards. -/
def SRSender.on_ack (s : SRSenderState) (ack_no : Nat) : SRSenderState :=
  if s.acked.contains ack_no then s
  else
    match s.send_buffer.lookup ack_no with
    | none => s
    | some _ =>
      _slide_window
        { s with
            acked := ack_no :: s.acked,
            timers := alist_erase ack_no s.timers,
            send_buffer := alist_erase ack_no s.send_buffer }

/-- `SRSender._on_timeout(seq_no)`.  The second component lists the
packets retransmitted by this call (the stored bytes, as-is). -/
def SRSender.on_timeout (s : SRSenderState) (seq_no now : Nat) :
    SRSenderState × List (List Nat) :=
  if s.acked.contains seq_no then (s, [])
  else
    match s.send_buffer.lookup seq_no with
    | none => (s, [])
    | some pkt_info =>
      if pkt_info.retry_count ≥ MAX_RETRIES then
        (_slide_window
          { s with
              timers := alist_erase seq_no s.timers,
              send_buffer := alist_erase seq_no s.send_buffer }, [])
      else
        ({ s with
            send_buffer := alist_insert seq_no
              { pkt_info with retry_count := pkt_info.retry_count + 1,
                              last_send_time := now } s.send_buffer,
            timers := alist_insert seq_no s.sender_timeout s.timers },
          [pkt_info.packet])

/-- Sender states reachable from construction by any interleaving of
`send` calls, ACK arrivals and timer firings. -/
inductive SRSenderReachable : SRSenderState → Prop where
  | init (st : ℚ) : SRSenderReachable (initSRSender st)
  | send (s : SRSenderState) (h : SRSenderReachable s) (payload : List Nat)
      (now : Nat) (io_ok : Bool) :
      SRSenderReachable (SRSender.send s payload now io_ok).1
  | ack (s : SRSenderState) (h : SRSenderReachable s) (ack_no : Nat) :
      SRSenderReachable (SRSender.on_ack s ack_no)
  | timeout (s : SRSenderState) (h : SRSenderReachable s) (seq_no now : Nat) :
      SRSenderReachable (SRSender.on_timeout s seq_no now).1

/-! ## Equation lemmas for the sender operations -/

theorem send_eq_window_full (s : SRSenderState) (payload : List Nat)
    (now : Nat) (io_ok : Bool)
    (hw : WINDOW_SIZE ≤ pymod_sub s.next_seq s.send_base) :
    SRSender.send s payload now io_ok = (s, SendResult.windowFull) := by
  unfold SRSender.send
  rw [if_pos hw]

theorem send_eq_too_large (s : SRSenderState) (payload : List Nat)
    (now : Nat) (io_ok : Bool)
    (hw : pymod_sub s.next_seq s.send_base < WINDOW_SIZE)
    (hp : MAX_PAYLOAD_SIZE < payload.length) :
    SRSender.send s payload now io_ok = (s, SendResult.payloadTooLarge) := by
  unfold SRSender.send
  rw [if_neg (by omega)]
  have henc : encode_data_packet CHANNEL_RELIABLE s.next_seq now payload
      = none := by
    unfold encode_data_packet
    rw [if_pos hp]
  rw [henc]

theorem send_eq_io_fail (s : SRSenderState) (payload : List Nat) (now : Nat)
    (hw : pymod_sub s.next_seq s.send_base < WINDOW_SIZE)
    (hp : payload.length ≤ MAX_PAYLOAD_SIZE) :
    SRSender.send s payload now false = (s, SendResult.socketError) := by
  unfold SRSender.send
  rw [if_neg (by omega)]
  have henc : encode_data_packet CHANNEL_RELIABLE s.next_seq now payload
      = some ([CHANNEL_RELIABLE] ++ toBytes2 (s.next_seq % 65536)
          ++ toBytes4 (now % 4294967296) ++ toBytes2 payload.length
          ++ payload) := by
    unfold encode_data_packet
    rw [if_neg (by omega)]
  rw [henc]
  rfl

theorem send_eq_success (s : SRSenderState) (payload : List Nat) (now : Nat)
    (hw : pymod_sub s.next_seq s.send_base < WINDOW_SIZE)
    (hp : payload.length ≤ MAX_PAYLOAD_SIZE) :
    SRSender.send s payload now true
      = ({ s with
            send_buffer := alist_insert s.next_seq
              { packet := [CHANNEL_RELIABLE] ++ toBytes2 (s.next_seq % 65536)
                  ++ toBytes4 (now % 4294967296) ++ toBytes2 payload.length
                  ++ payload,
                first_send_time := now, last_send_time := now,
                retry_count := 0, acked := false, skipped := false }
              s.send_buffer,
            timers := alist_insert s.next_seq RETRY_INTERVAL s.timers,
            next_seq := (s.next_seq + 1) % MAX_SEQ_NUM },
          SendResult.sent s.next_seq) := by
  unfold SRSender.send
  rw [if_neg (by omega)]
  have henc : encode_data_packet CHANNEL_RELIABLE s.next_seq now payload
      = some ([CHANNEL_RELIABLE] ++ toBytes2 (s.next_seq % 65536)
          ++ toBytes4 (now % 4294967296) ++ toBytes2 payload.length
          ++ payload) := by
    unfold encode_data_packet
    rw [if_neg (by omega)]
  rw [henc]
  rfl

theorem on_ack_eq_dup (s : SRSenderState) (k : Nat)
    (h : s.acked.contains k = true) : SRSender.on_ack s k = s := by
  unfold SRSender.on_ack
  rw [h]
  simp

theorem on_ack_eq_missing (s : SRSenderState) (k : Nat)
    (h : s.acked.contains k = false) (hb : s.send_buffer.lookup k = none) :
    SRSender.on_ack s k = s := by
  unfold SRSender.on_ack
  rw [h, hb]
  simp

theorem on_ack_eq_action (s : SRSenderState) (k : Nat) (pi : PacketInfo)
    (h : s.acked.contains k = false) (hb : s.send_buffer.lookup k = some pi) :
    SRSender.on_ack s k
      = _slide_window
          { s with acked := k :: s.acked,
                   timers := alist_erase k s.timers,
                   send_buffer := alist_erase k s.send_buffer } := by
  unfold SRSender.on_ack
  rw [h, hb]
  simp

theorem on_timeout_eq_acked (s : SRSenderState) (k now : Nat)
    (h : s.acked.contains k = true) :
    SRSender.on_timeout s k now = (s, []) := by
  unfold SRSender.on_timeout
  rw [h]
  simp

theorem on_timeout_eq_missing (s : SRSenderState) (k now : Nat)
    (h : s.acked.contains k = false) (hb : s.send_buffer.lookup k = none) :
    SRSender.on_timeout s k now = (s, []) := by
  unfold SRSender.on_timeout
  rw [h, hb]
  simp

theorem on_timeout_eq_skip (s : SRSenderState) (k now : Nat)
    (pi : PacketInfo) (h : s.acked.contains k = false)
    (hb : s.send_buffer.lookup k = some pi)
    (hr : MAX_RETRIES ≤ pi.retry_count) :
    SRSender.on_timeout s k now
      = (_slide_window
          { s with timers := alist_erase k s.timers,
                   send_buffer := alist_erase k s.send_buffer }, []) := by
  unfold SRSender.on_timeout
  rw [h, hb]
  simp only [Bool.false_eq_true, if_false]
  rw [if_pos hr]

theorem on_timeout_eq_retry (s : SRSenderState) (k now : Nat)
    (pi : PacketInfo) (h : s.acked.contains k = false)
    (hb : s.send_buffer.lookup k = some pi)
    (hr : pi.retry_count < MAX_RETRIES) :
    SRSender.on_timeout s k now
      = ({ s with
            send_buffer := alist_insert k
              { pi with retry_count := pi.retry_count + 1,
                        last_send_time := now } s.send_buffer,
            timers := alist_insert k s.sender_timeout s.timers },
          [pi.packet]) := by
  unfold SRSender.on_timeout
  rw [h, hb]
  simp only [Bool.false_eq_true, if_false]
  rw [if_neg (by omega)]

/-! ## Window-slide lemmas -/

theorem slide_window_fuel_fields (f : Nat) : ∀ s : SRSenderState,
    (slide_window_fuel f s).sender_timeout = s.sender_timeout ∧
    (slide_window_fuel f s).next_seq = s.next_seq ∧
    (slide_window_fuel f s).send_buffer = s.send_buffer ∧
    (slide_window_fuel f s).acked = s.acked ∧
    (slide_window_fuel f s).timers = s.timers := by
  induction f with
  | zero => intro s; exact ⟨rfl, rfl, rfl, rfl, rfl⟩
  | succ f ih =>
    intro s
    simp only [slide_window_fuel]
    by_cases h1 : (s.acked.contains s.send_base
        || !(s.send_buffer.lookup s.send_base).isSome) = true
    · rw [if_pos h1]
      by_cases h2 : (s.send_base == s.next_seq) = true
      · rw [if_pos h2]
        exact ⟨rfl, rfl, rfl, rfl, rfl⟩
      · rw [if_neg h2]
        exact ih _
    · rw [if_neg h1]
      exact ⟨rfl, rfl, rfl, rfl, rfl⟩

theorem slide_window_fuel_window (f : Nat) : ∀ s : SRSenderState,
    s.send_base < MAX_SEQ_NUM → s.next_seq < MAX_SEQ_NUM →
    (slide_window_fuel f s).send_base < MAX_SEQ_NUM ∧
    pymod_sub (slide_window_fuel f s).next_seq
        (slide_window_fuel f s).send_base
      ≤ pymod_sub s.next_seq s.send_base := by
  induction f with
  | zero => intro s h1 h2; exact ⟨h1, le_refl _⟩
  | succ f ih =>
    intro s h1 h2
    simp only [slide_window_fuel]
    by_cases hc : (s.acked.contains s.send_base
        || !(s.send_buffer.lookup s.send_base).isSome) = true
    · rw [if_pos hc]
      by_cases he : (s.send_base == s.next_seq) = true
      · rw [if_pos he]
        exact ⟨h1, le_refl _⟩
      · rw [if_neg he]
        have hne : ¬s.send_base = s.next_seq := by simpa using he
        have h1' : s.send_base < 65536 := h1
        have h2' : s.next_seq < 65536 := h2
        have hb2 : ((s.send_base + 1) % MAX_SEQ_NUM) < MAX_SEQ_NUM := by
          show (s.send_base + 1) % 65536 < 65536
          omega
        have hstep := ih { s with send_base := (s.send_base + 1) % MAX_SEQ_NUM }
          hb2 h2
        refine ⟨hstep.1, le_trans hstep.2 ?_⟩
        show (s.next_seq + 2 * 65536 - (s.send_base + 1) % 65536) % 65536
          ≤ (s.next_seq + 2 * 65536 - s.send_base) % 65536
        omega
    · rw [if_neg hc]
      exact ⟨h1, le_refl _⟩

theorem slide_window_fuel_post (f : Nat) : ∀ s : SRSenderState,
    s.send_base < MAX_SEQ_NUM → s.next_seq < MAX_SEQ_NUM →
    pymod_sub s.next_seq s.send_base < f →
    (slide_window_fuel f s).send_base = (slide_window_fuel f s).next_seq ∨
      ((slide_window_fuel f s).acked.contains
          (slide_window_fuel f s).send_base = false ∧
        ((slide_window_fuel f s).send_buffer.lookup
          (slide_window_fuel f s).send_base).isSome = true) := by
  induction f with
  | zero => intro s h1 h2 h3; exact absurd h3 (Nat.not_lt_zero _)
  | succ f ih =>
    intro s h1 h2 h3
    simp only [slide_window_fuel]
    by_cases hc : (s.acked.contains s.send_base
        || !(s.send_buffer.lookup s.send_base).isSome) = true
    · rw [if_pos hc]
      by_cases he : (s.send_base == s.next_seq) = true
      · rw [if_pos he]
        left
        simpa using he
      · rw [if_neg he]
        have hne : ¬s.send_base = s.next_seq := by simpa using he
        have h1' : s.send_base < 65536 := h1
        have h2' : s.next_seq < 65536 := h2
        have h3' : (s.next_seq + 2 * 65536 - s.send_base) % 65536 < f + 1 := h3
        apply ih
        · show (s.send_base + 1) % 65536 < 65536
          omega
        · exact h2
        · show (s.next_seq + 2 * 65536 - (s.send_base + 1) % 65536) % 65536 < f
          omega
    · rw [if_neg hc]
      right
      cases hacked : s.acked.contains s.send_base with
      | true => exact absurd (by rw [hacked]; rfl) hc
      | false =>
        cases hbuf : (s.send_buffer.lookup s.send_base).isSome with
        | false => exact absurd (by rw [hacked, hbuf]; rfl) hc
        | true => exact ⟨rfl, rfl⟩

theorem _slide_window_fields (s : SRSenderState) :
    (_slide_window s).sender_timeout = s.sender_timeout ∧
    (_slide_window s).next_seq = s.next_seq ∧
    (_slide_window s).send_buffer = s.send_buffer ∧
    (_slide_window s).acked = s.acked ∧
    (_slide_window s).timers = s.timers :=
  slide_window_fuel_fields MAX_SEQ_NUM s

theorem _slide_window_window (s : SRSenderState)
    (h1 : s.send_base < MAX_SEQ_NUM) (h2 : s.next_seq < MAX_SEQ_NUM) :
    (_slide_window s).send_base < MAX_SEQ_NUM ∧
    pymod_sub (_slide_window s).next_seq (_slide_window s).send_base
      ≤ pymod_sub s.next_seq s.send_base :=
  slide_window_fuel_window MAX_SEQ_NUM s h1 h2

theorem _slide_window_post (s : SRSenderState)
    (h1 : s.send_base < MAX_SEQ_NUM) (h2 : s.next_seq < MAX_SEQ_NUM) :
    (_slide_window s).send_base = (_slide_window s).next_seq ∨
      ((_slide_window s).acked.contains (_slide_window s).send_base = false ∧
        ((_slide_window s).send_buffer.lookup
          (_slide_window s).send_base).isSome = true) :=
  slide_window_fuel_post MAX_SEQ_NUM s h1 h2
    (by show (s.next_seq + 2 * 65536 - s.send_base) % 65536 < 65536; omega)

/-- Bound part of the sender invariant of claim C2: `send_base` and
`next_seq` stay 16-bit and the in-flight count never exceeds the
window. -/
def SenderInv (s : SRSenderState) : Prop :=
  s.send_base < MAX_SEQ_NUM ∧ s.next_seq < MAX_SEQ_NUM ∧
    pymod_sub s.next_seq s.send_base ≤ WINDOW_SIZE

/-- Sender bound invariant (claim C2) holds in every reachable state. -/
theorem sender_reachable_inv (s : SRSenderState) (h : SRSenderReachable s) :
    SenderInv s := by
  induction h with
  | init st =>
    refine ⟨?_, ?_, ?_⟩
    · show (0 : Nat) < MAX_SEQ_NUM
      decide
    · show (0 : Nat) < MAX_SEQ_NUM
      decide
    · show pymod_sub 0 0 ≤ WINDOW_SIZE
      decide
  | send s h payload now io_ok ih =>
    obtain ⟨h1, h2, h3⟩ := ih
    by_cases hw : WINDOW_SIZE ≤ pymod_sub s.next_seq s.send_base
    · rw [send_eq_window_full s payload now io_ok hw]
      exact ⟨h1, h2, h3⟩
    · have hw' : pymod_sub s.next_seq s.send_base < WINDOW_SIZE := by omega
      by_cases hp : payload.length ≤ MAX_PAYLOAD_SIZE
      · cases io_ok with
        | false =>
          rw [send_eq_io_fail s payload now hw' hp]
          exact ⟨h1, h2, h3⟩
        | true =>
          rw [send_eq_success s payload now hw' hp]
          refine ⟨h1, ?_, ?_⟩
          · show (s.next_seq + 1) % 65536 < 65536
            omega
          · show ((s.next_seq + 1) % 65536 + 2 * 65536 - s.send_base) % 65536
              ≤ 32
            have h1' : s.send_base < 65536 := h1
            have h2' : s.next_seq < 65536 := h2
            have hw2 : (s.next_seq + 2 * 65536 - s.send_base) % 65536 < 32 :=
              hw'
            omega
      · rw [send_eq_too_large s payload now io_ok hw' (by omega)]
        exact ⟨h1, h2, h3⟩
  | ack s h ack_no ih =>
    obtain ⟨h1, h2, h3⟩ := ih
    cases ha : s.acked.contains ack_no with
    | true =>
      rw [on_ack_eq_dup s ack_no ha]
      exact ⟨h1, h2, h3⟩
    | false =>
      cases hb : s.send_buffer.lookup ack_no with
      | none =>
        rw [on_ack_eq_missing s ack_no ha hb]
        exact ⟨h1, h2, h3⟩
      | some pi =>
        rw [on_ack_eq_action s ack_no pi ha hb]
        have hff := _slide_window_fields
          { s with acked := ack_no :: s.acked,
                   timers := alist_erase ack_no s.timers,
                   send_buffer := alist_erase ack_no s.send_buffer }
        have hww := _slide_window_window
          { s with acked := ack_no :: s.acked,
                   timers := alist_erase ack_no s.timers,
                   send_buffer := alist_erase ack_no s.send_buffer } h1 h2
        refine ⟨hww.1, ?_, ?_⟩
        · rw [hff.2.1]
          exact h2
        · exact le_trans hww.2 h3
  | timeout s h seq_no now ih =>
    obtain ⟨h1, h2, h3⟩ := ih
    cases ha : s.acked.contains seq_no with
    | true =>
      rw [on_timeout_eq_acked s seq_no now ha]
      exact ⟨h1, h2, h3⟩
    | false =>
      cases hb : s.send_buffer.lookup seq_no with
      | none =>
        rw [on_timeout_eq_missing s seq_no now ha hb]
        exact ⟨h1, h2, h3⟩
      | some pi =>
        by_cases hr : MAX_RETRIES ≤ pi.retry_count
        · rw [on_timeout_eq_skip s seq_no now pi ha hb hr]
          have hff := _slide_window_fields
            { s with timers := alist_erase seq_no s.timers,
                     send_buffer := alist_erase seq_no s.send_buffer }
          have hww := _slide_window_window
            { s with timers := alist_erase seq_no s.timers,
                     send_buffer := alist_erase seq_no s.send_buffer } h1 h2
          refine ⟨hww.1, ?_, ?_⟩
          · rw [hff.2.1]
            exact h2
          · exact le_trans hww.2 h3
        · rw [on_timeout_eq_retry s seq_no now pi ha hb (by omega)]
          exact ⟨h1, h2, h3⟩

/-! ## Claims C2, C4, C5, C6, C8 about the sender -/

/-- **C2.** In every reachable sender state the in-flight count
`(next_seq - send_base) mod 2^16` is at most `W = 32` (preservation by
`send`, `on_ack`, `on_timeout` and `_slide_window` is exactly the
induction over `SRSenderReachable`), and when the count equals `W` a
call to `send` returns the `WindowFull` sentinel with the sender state
— `send_base`, `next_seq`, `send_buffer`, `acked`, `timers` —
completely unchanged. -/
theorem sender_window_bounded (s : SRSenderState) (h : SRSenderReachable s) :
    pymod_sub s.next_seq s.send_base ≤ WINDOW_SIZE
    ∧ (pymod_sub s.next_seq s.send_base = WINDOW_SIZE →
        ∀ (payload : List Nat) (now : Nat) (io_ok : Bool),
          SRSender.send s payload now io_ok = (s, SendResult.windowFull)) := by
  have hinv := sender_reachable_inv s h
  refine ⟨hinv.2.2, ?_⟩
  intro he payload now io_ok
  exact send_eq_window_full s payload now io_ok (le_of_eq he.symm)

/-- Witness for `sender_window_bounded` at the initial state. -/
theorem sender_window_bounded_witness :
    pymod_sub (initSRSender RETRY_INTERVAL).next_seq
        (initSRSender RETRY_INTERVAL).send_base ≤ WINDOW_SIZE
    ∧ (pymod_sub (initSRSender RETRY_INTERVAL).next_seq
          (initSRSender RETRY_INTERVAL).send_base = WINDOW_SIZE →
        ∀ (payload : List Nat) (now : Nat) (io_ok : Bool),
          SRSender.send (initSRSender RETRY_INTERVAL) payload now io_ok
            = (initSRSender RETRY_INTERVAL, SendResult.windowFull)) :=
  sender_window_bounded (initSRSender RETRY_INTERVAL)
    (SRSenderReachable.init RETRY_INTERVAL)

/-- **C4 counterexample.** With `sender_timeout = 1` second, a
successful `send` arms the initial retransmission timer with the
module constant `RETRY_INTERVAL = 0.2`, not with `sender_timeout`:
the claim fails for any `sender_timeout ≠ 0.2`. -/
theorem initial_timer_interval_counterexample :
    (SRSender.send (initSRSender 1) [7] 0 true).2 = SendResult.sent 0
    ∧ (SRSender.send (initSRSender 1) [7] 0 true).1.timers.lookup 0
        = some RETRY_INTERVAL
    ∧ ¬RETRY_INTERVAL = (initSRSender 1).sender_timeout := by
  refine ⟨rfl, rfl, ?_⟩
  show ¬RETRY_INTERVAL = 1
  norm_num [RETRY_INTERVAL]

/-- **C4 (amended).** For every successful `send`, the one-shot timer
armed for the newly assigned sequence uses the module constant
`RETRY_INTERVAL` (0.200 s) regardless of the instance parameter
`sender_timeout`; only the retry timers armed inside `on_timeout` use
`sender_timeout`. -/
theorem send_initial_timer_retry_interval (s : SRSenderState)
    (payload : List Nat) (now : Nat) (io_ok : Bool) (seq : Nat)
    (h : (SRSender.send s payload now io_ok).2 = SendResult.sent seq) :
    (SRSender.send s payload now io_ok).1.timers.lookup seq
      = some RETRY_INTERVAL
    ∧ ∀ (s2 : SRSenderState) (seq2 now2 : Nat) (pi : PacketInfo),
        s2.acked.contains seq2 = false →
        s2.send_buffer.lookup seq2 = some pi →
        pi.retry_count < MAX_RETRIES →
        (SRSender.on_timeout s2 seq2 now2).1.timers.lookup seq2
          = some s2.sender_timeout := by
  constructor
  · by_cases hw : WINDOW_SIZE ≤ pymod_sub s.next_seq s.send_base
    · rw [send_eq_window_full s payload now io_ok hw] at h
      simp at h
    · have hw' : pymod_sub s.next_seq s.send_base < WINDOW_SIZE := by omega
      by_cases hp : payload.length ≤ MAX_PAYLOAD_SIZE
      · cases io_ok with
        | false =>
          rw [send_eq_io_fail s payload now hw' hp] at h
          simp at h
        | true =>
          rw [send_eq_success s payload now hw' hp] at h ⊢
          have hseq : s.next_seq = seq := by simpa using h
          subst hseq
          show (alist_insert s.next_seq RETRY_INTERVAL s.timers).lookup
            s.next_seq = some RETRY_INTERVAL
          rw [lookup_alist_insert, if_pos rfl]
      · rw [send_eq_too_large s payload now io_ok hw' (by omega)] at h
        simp at h
  · intro s2 seq2 now2 pi ha hb hr
    rw [on_timeout_eq_retry s2 seq2 now2 pi ha hb hr]
    show (alist_insert seq2 s2.sender_timeout s2.timers).lookup seq2
      = some s2.sender_timeout
    rw [lookup_alist_insert, if_pos rfl]

/-- Witness for `send_initial_timer_retry_interval` at a concrete
successful send. -/
theorem send_initial_timer_retry_interval_witness :
    (SRSender.send (initSRSender 1) [7] 0 true).1.timers.lookup 0
      = some RETRY_INTERVAL
    ∧ ∀ (s2 : SRSenderState) (seq2 now2 : Nat) (pi : PacketInfo),
        s2.acked.contains seq2 = false →
        s2.send_buffer.lookup seq2 = some pi →
        pi.retry_count < MAX_RETRIES →
        (SRSender.on_timeout s2 seq2 now2).1.timers.lookup seq2
          = some s2.sender_timeout :=
  send_initial_timer_retry_interval (initSRSender 1) [7] 0 true 0 rfl

/-- **C5.** For a live entry (present in the buffer, not acked), a
timer firing with `retry_count < MAX_RETRIES` retransmits the stored
encoded bytes unchanged (the `packet` field, carrying the original
timestamp — nothing is re-encoded) and increments the retry count,
re-arming the timer; with `retry_count ≥ MAX_RETRIES` it removes the
entry, slides the window until `send_base` reaches `next_seq` or an
unacked buffered sequence, and emits nothing — no error is surfaced
(the call returns normally with an empty transmission list). -/
theorem on_timeout_behavior (s : SRSenderState) (seq now : Nat)
    (pi : PacketInfo) (hb : s.send_buffer.lookup seq = some pi)
    (ha : s.acked.contains seq = false)
    (h1 : s.send_base < MAX_SEQ_NUM) (h2 : s.next_seq < MAX_SEQ_NUM) :
    (pi.retry_count < MAX_RETRIES →
      SRSender.on_timeout s seq now
        = ({ s with
              send_buffer := alist_insert seq
                { pi with retry_count := pi.retry_count + 1,
                          last_send_time := now } s.send_buffer,
              timers := alist_insert seq s.sender_timeout s.timers },
            [pi.packet]))
    ∧ (MAX_RETRIES ≤ pi.retry_count →
        (SRSender.on_timeout s seq now).2 = []
        ∧ (SRSender.on_timeout s seq now).1.send_buffer.lookup seq = none
        ∧ (SRSender.on_timeout s seq now).1
            = _slide_window
                { s with timers := alist_erase seq s.timers,
                         send_buffer := alist_erase seq s.send_buffer }
        ∧ ((SRSender.on_timeout s seq now).1.send_base
              = (SRSender.on_timeout s seq now).1.next_seq
            ∨ ((SRSender.on_timeout s seq now).1.acked.contains
                  (SRSender.on_timeout s seq now).1.send_base = false
              ∧ ((SRSender.on_timeout s seq now).1.send_buffer.lookup
                  (SRSender.on_timeout s seq now).1.send_base).isSome
                  = true))) := by
  constructor
  · intro hr
    exact on_timeout_eq_retry s seq now pi ha hb hr
  · intro hr
    have heq := on_timeout_eq_skip s seq now pi ha hb hr
    rw [heq]
    have hff := _slide_window_fields
      { s with timers := alist_erase seq s.timers,
               send_buffer := alist_erase seq s.send_buffer }
    refine ⟨rfl, ?_, rfl, ?_⟩
    · have hbf : (_slide_window
          { s with timers := alist_erase seq s.timers,
                   send_buffer := alist_erase seq s.send_buffer }).send_buffer
          = alist_erase seq s.send_buffer := hff.2.2.1
      show (_slide_window
          { s with timers := alist_erase seq s.timers,
                   send_buffer := alist_erase seq s.send_buffer
            }).send_buffer.lookup seq = none
      rw [hbf, lookup_alist_erase, if_pos rfl]
    · exact _slide_window_post _ h1 h2

/-- A concrete one-packet-in-flight sender state used as witness
input. -/
def witnessPacketInfo : PacketInfo :=
  { packet := [0, 0, 0, 0, 0, 0, 0, 0, 0], first_send_time := 0,
    last_send_time := 0, retry_count := 0, acked := false,
    skipped := false }

/-- A concrete sender state with sequence 0 outstanding. -/
def witnessSenderState : SRSenderState :=
  { sender_timeout := RETRY_INTERVAL, send_base := 0, next_seq := 1,
    send_buffer := [(0, witnessPacketInfo)], acked := [],
    timers := [(0, RETRY_INTERVAL)] }

/-- Witness for `on_timeout_behavior` at the concrete state. -/
theorem on_timeout_behavior_witness :
    (witnessPacketInfo.retry_count < MAX_RETRIES →
      SRSender.on_timeout witnessSenderState 0 5
        = ({ witnessSenderState with
              send_buffer := alist_insert 0
                { witnessPacketInfo with
                    retry_count := witnessPacketInfo.retry_count + 1,
                    last_send_time := 5 } witnessSenderState.send_buffer,
              timers := alist_insert 0 witnessSenderState.sender_timeout
                witnessSenderState.timers },
            [witnessPacketInfo.packet]))
    ∧ (MAX_RETRIES ≤ witnessPacketInfo.retry_count →
        (SRSender.on_timeout witnessSenderState 0 5).2 = []
        ∧ (SRSender.on_timeout witnessSenderState 0 5).1.send_buffer.lookup 0
            = none
        ∧ (SRSender.on_timeout witnessSenderState 0 5).1
            = _slide_window
                { witnessSenderState with
                    timers := alist_erase 0 witnessSenderState.timers,
                    send_buffer :=
                      alist_erase 0 witnessSenderState.send_buffer }
        ∧ ((SRSender.on_timeout witnessSenderState 0 5).1.send_base
              = (SRSender.on_timeout witnessSenderState 0 5).1.next_seq
            ∨ ((SRSender.on_timeout witnessSenderState 0 5).1.acked.contains
                  (SRSender.on_timeout witnessSenderState 0 5).1.send_base
                  = false
              ∧ ((SRSender.on_timeout witnessSenderState 0 5).1.send_buffer.lookup
                  (SRSender.on_timeout witnessSenderState 0 5).1.send_base).isSome
                  = true))) :=
  on_timeout_behavior witnessSenderState 0 5 witnessPacketInfo rfl rfl
    (by decide) (by decide)

/-- **C6.** `on_ack` is idempotent: a second identical ACK is a no-op,
and a late or duplicate ACK (already acked, or absent from the send
buffer) leaves the whole sender state unchanged. -/
theorem on_ack_idempotent (s : SRSenderState) (k : Nat) :
    SRSender.on_ack (SRSender.on_ack s k) k = SRSender.on_ack s k
    ∧ ((s.acked.contains k = true ∨ s.send_buffer.lookup k = none) →
        SRSender.on_ack s k = s) := by
  constructor
  · cases ha : s.acked.contains k with
    | true => rw [on_ack_eq_dup s k ha, on_ack_eq_dup s k ha]
    | false =>
      cases hb : s.send_buffer.lookup k with
      | none => rw [on_ack_eq_missing s k ha hb, on_ack_eq_missing s k ha hb]
      | some pi =>
        rw [on_ack_eq_action s k pi ha hb]
        apply on_ack_eq_dup
        have hff := _slide_window_fields
          { s with acked := k :: s.acked,
                   timers := alist_erase k s.timers,
                   send_buffer := alist_erase k s.send_buffer }
        rw [hff.2.2.2.1]
        simp
  · intro hcase
    rcases hcase with hc | hc
    · exact on_ack_eq_dup s k hc
    · cases ha : s.acked.contains k with
      | true => exact on_ack_eq_dup s k ha
      | false => exact on_ack_eq_missing s k ha hc

/-- Witness for `on_ack_idempotent` at a concrete state (the inner
implication is instantiated at the initial state, whose buffer is
empty). -/
theorem on_ack_idempotent_witness :
    SRSender.on_ack (SRSender.on_ack (initSRSender RETRY_INTERVAL) 3) 3
        = SRSender.on_ack (initSRSender RETRY_INTERVAL) 3
    ∧ (((initSRSender RETRY_INTERVAL).acked.contains 3 = true
          ∨ (initSRSender RETRY_INTERVAL).send_buffer.lookup 3 = none) →
        SRSender.on_ack (initSRSender RETRY_INTERVAL) 3
          = initSRSender RETRY_INTERVAL) :=
  on_ack_idempotent (initSRSender RETRY_INTERVAL) 3

/-- **C8 counterexample.** The `socket.sendto` inside `send` is not
guarded by any `try`: when it raises, the exception propagates out of
`send` before the entry is buffered or any timer armed, so no
retransmission will ever happen for that payload — contradicting the
claim that the entry remains with a timer armed. -/
theorem send_io_error_counterexample :
    SRSender.send (initSRSender RETRY_INTERVAL) [9] 0 false
      = (initSRSender RETRY_INTERVAL, SendResult.socketError)
    ∧ (initSRSender RETRY_INTERVAL).send_buffer.lookup 0 = none
    ∧ (initSRSender RETRY_INTERVAL).timers.lookup 0 = none :=
  ⟨rfl, rfl, rfl⟩

/-- **C8 (amended).** If the socket transmit inside `send` fails, the
`OSError` propagates to the caller and the sender state is completely
unchanged: no entry is recorded in the send buffer, no retransmission
timer is armed, and `next_seq` is not advanced — the payload is lost
from the protocol's point of view. -/
theorem send_io_error_propagates (s : SRSenderState) (payload : List Nat)
    (now : Nat) (hw : pymod_sub s.next_seq s.send_base < WINDOW_SIZE)
    (hp : payload.length ≤ MAX_PAYLOAD_SIZE) :
    SRSender.send s payload now false = (s, SendResult.socketError) :=
  send_eq_io_fail s payload now hw hp

/-- Witness for `send_io_error_propagates` at the initial state. -/
theorem send_io_error_propagates_witness :
    SRSender.send (initSRSender RETRY_INTERVAL) [9] 0 false
      = (initSRSender RETRY_INTERVAL, SendResult.socketError) :=
  send_io_error_propagates (initSRSender RETRY_INTERVAL) [9] 0
    (by decide) (by decide)

/-! ## sr_receiver.py

`DEFAULT_RECEIVER_SKIP_TIMEOUT` and the `wait_time >= receiver_timeout`
comparison in `_check_skip_loop` only decide *when* the background
skip thread acts; with wall-clock time abstracted, a skip is modelled
as a step that may fire whenever `waiting_since` holds the current
`rcv_base` (covering every possible clock).  `_send_ack` transmissions
are returned as explicit outputs. -/

structure BufferedPacket where
  payload : List Nat
  timestamp : Nat
  arrival_time : Nat
deriving DecidableEq

/-- The record handed to `delivery_callback` by `_deliver_packet`. -/
structure DeliveryRecord where
  seq_no : Nat
  payload : List Nat
  timestamp : Nat
  latency : Nat
deriving DecidableEq

structure SRReceiverState where
  rcv_base : Nat
  rcv_buffer : List (Nat × BufferedPacket)
  delivered : List Nat
  waiting_since : List (Nat × Nat)
deriving DecidableEq

/-- `SRReceiver.__init__`. -/
def initSRReceiver : SRReceiverState :=
  { rcv_base := 0, rcv_buffer := [], delivered := [], waiting_since := [] }

/-- The wrap-tolerant latency computation of `_deliver_packet`
(`arrival_time` is already masked to 32 bits at the call site). -/
def packet_latency (arrival_time timestamp : Nat) : Nat :=
  if timestamp ≤ arrival_time then arrival_time - timestamp
  else (0xFFFFFFFF - timestamp) + arrival_time + 1

/-- `SRReceiver._deliver_packet(seq_no, payload, timestamp)`: adds the
sequence to `delivered` and emits the delivery record (the callback
invocation). -/
def _deliver_packet (s : SRReceiverState) (seq_no : Nat)
    (payload : List Nat) (timestamp now : Nat) :
    SRReceiverState × DeliveryRecord :=
  ({ s with delivered := seq_no :: s.delivered },
   { seq_no := seq_no, payload := payload, timestamp := timestamp,
     latency := packet_latency (now % 4294967296) timestamp })

/-- One iteration bound for `_deliver_buffered`'s while-loop: every
iteration deletes the `rcv_base` key from `rcv_buffer`, so the buffer
length bounds the Python loop's iterations exactly. -/
def deliver_buffered_fuel (now : Nat) :
    Nat → SRReceiverState → SRReceiverState × List DeliveryRecord
  | 0, s => (s, [])
  | f + 1, s =>
    match s.rcv_buffer.lookup s.rcv_base with
    | none => (s, [])
    | some bp =>
      let step := _deliver_packet s s.rcv_base bp.payload bp.timestamp now
      let s2 := { step.1 with
                  rcv_buffer := alist_erase s.rcv_base step.1.rcv_buffer,
                  waiting_since :=
                    alist_erase s.rcv_base step.1.waiting_since,
                  rcv_base := (s.rcv_base + 1) % MAX_SEQ_NUM }
      let rest := deliver_buffered_fuel now f s2
      (rest.1, step.2 :: rest.2)

/-- `SRReceiver._deliver_buffered`. -/
def _deliver_buffered (now : Nat) (s : SRReceiverState) :
    SRReceiverState × List DeliveryRecord :=
  deliver_buffered_fuel now s.rcv_buffer.length s

/-- `SRReceiver.on_receive(packet_data, sender_addr)`.  Returns the new
state, the records delivered upward, and the encoded ACK frames sent
back (the `sender_addr` destination is an I/O detail). -/
def SRReceiver.on_receive (s : SRReceiverState) (seq_no timestamp : Nat)
    (payload : List Nat) (now : Nat) :
    SRReceiverState × List DeliveryRecord × List (List Nat) :=
  if s.delivered.contains seq_no then
    (s, [], [encode_ack_packet seq_no timestamp])
  else if _seq_less_than seq_no s.rcv_base then
    (s, [], [encode_ack_packet seq_no timestamp])
  else if _seq_greater_equal seq_no (s.rcv_base + WINDOW_SIZE) then
    (s, [], [])
  else
    if seq_no == s.rcv_base then
      match _deliver_packet
          { s with waiting_since := alist_erase s.rcv_base s.waiting_since }
          seq_no payload timestamp now with
      | (s1, rec) =>
        match _deliver_buffered now
            { s1 with rcv_base := (s1.rcv_base + 1) % MAX_SEQ_NUM } with
        | (s3, recs) =>
          (s3, rec :: recs, [encode_ack_packet seq_no timestamp])
    else
      if (s.waiting_since.lookup s.rcv_base).isSome then
        ({ s with
            rcv_buffer := alist_insert seq_no
              { payload := payload, timestamp := timestamp,
                arrival_time := now } s.rcv_buffer },
          [], [encode_ack_packet seq_no timestamp])
      else
        ({ s with
            rcv_buffer := alist_insert seq_no
              { payload := payload, timestamp := timestamp,
                arrival_time := now } s.rcv_buffer,
            waiting_since := alist_insert s.rcv_base now s.waiting_since },
          [], [encode_ack_packet seq_no timestamp])

/-- One firing of the `_check_skip_loop` body in the state where the
timeout test passes: abandon `rcv_base` and drain.  When no
`waiting_since` entry exists for `rcv_base` the body does nothing. -/
def SRReceiver.check_skip (s : SRReceiverState) (now : Nat) :
    SRReceiverState × List DeliveryRecord :=
  if (s.waiting_since.lookup s.rcv_base).isSome then
    _deliver_buffered now
      { s with waiting_since := alist_erase s.rcv_base s.waiting_since,
               rcv_base := (s.rcv_base + 1) % MAX_SEQ_NUM }
  else (s, [])

/-- Receiver executions: any interleaving of `on_receive` calls (with
the 16-bit decoded sequence field) and skip-thread firings, together
with the concatenated list of records delivered upward. -/
inductive SRReceiverTrace : SRReceiverState → List DeliveryRecord → Prop where
  | init : SRReceiverTrace initSRReceiver []
  | recv (s : SRReceiverState) (tr : List DeliveryRecord)
      (h : SRReceiverTrace s tr) (seq_no timestamp : Nat)
      (payload : List Nat) (now : Nat) (hseq : seq_no < MAX_SEQ_NUM) :
      SRReceiverTrace (SRReceiver.on_receive s seq_no timestamp payload now).1
        (tr ++ (SRReceiver.on_receive s seq_no timestamp payload now).2.1)
  | skip (s : SRReceiverState) (tr : List DeliveryRecord)
      (h : SRReceiverTrace s tr) (now : Nat) :
      SRReceiverTrace (SRReceiver.check_skip s now).1
        (tr ++ (SRReceiver.check_skip s now).2)

theorem nat_contains_iff (l : List Nat) (x : Nat) :
    l.contains x = true ↔ x ∈ l := by
  induction l with
  | nil => simp
  | cons a t ih =>
    simp [List.contains_cons, Bool.or_eq_true, beq_iff_eq, ih, List.mem_cons]

theorem nat_contains_false_iff (l : List Nat) (x : Nat) :
    l.contains x = false ↔ ¬x ∈ l := by
  rw [← nat_contains_iff l x]
  cases l.contains x <;> simp

/-! ## Branch equations for `on_receive` and `check_skip` -/

theorem on_receive_eq_dup (s : SRReceiverState) (seq ts : Nat)
    (payload : List Nat) (now : Nat)
    (h : s.delivered.contains seq = true) :
    SRReceiver.on_receive s seq ts payload now
      = (s, [], [encode_ack_packet seq ts]) := by
  unfold SRReceiver.on_receive
  rw [if_pos h]

theorem on_receive_eq_below (s : SRReceiverState) (seq ts : Nat)
    (payload : List Nat) (now : Nat)
    (h1 : s.delivered.contains seq = false)
    (h2 : _seq_less_than seq s.rcv_base = true) :
    SRReceiver.on_receive s seq ts payload now
      = (s, [], [encode_ack_packet seq ts]) := by
  unfold SRReceiver.on_receive
  rw [h1]
  simp only [Bool.false_eq_true, if_false]
  rw [if_pos h2]

theorem on_receive_eq_above (s : SRReceiverState) (seq ts : Nat)
    (payload : List Nat) (now : Nat)
    (h1 : s.delivered.contains seq = false)
    (h2 : _seq_less_than seq s.rcv_base = false)
    (h3 : _seq_greater_equal seq (s.rcv_base + WINDOW_SIZE) = true) :
    SRReceiver.on_receive s seq ts payload now = (s, [], []) := by
  unfold SRReceiver.on_receive
  rw [h1, h2]
  simp only [Bool.false_eq_true, if_false]
  rw [if_pos h3]

theorem on_receive_eq_inorder (s : SRReceiverState) (seq ts : Nat)
    (payload : List Nat) (now : Nat)
    (h1 : s.delivered.contains seq = false)
    (h2 : _seq_less_than seq s.rcv_base = false)
    (h3 : _seq_greater_equal seq (s.rcv_base + WINDOW_SIZE) = false)
    (h4 : seq = s.rcv_base) :
    SRReceiver.on_receive s seq ts payload now
      = ((_deliver_buffered now
            { s with rcv_base := (s.rcv_base + 1) % MAX_SEQ_NUM,
                     delivered := seq :: s.delivered,
                     waiting_since :=
                       alist_erase s.rcv_base s.waiting_since }).1,
         { seq_no := seq, payload := payload, timestamp := ts,
           latency := packet_latency (now % 4294967296) ts }
           :: (_deliver_buffered now
            { s with rcv_base := (s.rcv_base + 1) % MAX_SEQ_NUM,
                     delivered := seq :: s.delivered,
                     waiting_since :=
                       alist_erase s.rcv_base s.waiting_since }).2,
         [encode_ack_packet seq ts]) := by
  unfold SRReceiver.on_receive
  rw [h1, h2, h3]
  simp only [Bool.false_eq_true, if_false]
  rw [if_pos (by simp [h4])]
  rfl

theorem on_receive_eq_buffer_waiting (s : SRReceiverState) (seq ts : Nat)
    (payload : List Nat) (now : Nat)
    (h1 : s.delivered.contains seq = false)
    (h2 : _seq_less_than seq s.rcv_base = false)
    (h3 : _seq_greater_equal seq (s.rcv_base + WINDOW_SIZE) = false)
    (h4 : ¬seq = s.rcv_base)
    (h5 : (s.waiting_since.lookup s.rcv_base).isSome = true) :
    SRReceiver.on_receive s seq ts payload now
      = ({ s with
            rcv_buffer := alist_insert seq
              { payload := payload, timestamp := ts, arrival_time := now }
              s.rcv_buffer },
         [], [encode_ack_packet seq ts]) := by
  unfold SRReceiver.on_receive
  rw [h1, h2, h3]
  simp only [Bool.false_eq_true, if_false]
  rw [if_neg (by simp [h4]), if_pos h5]

theorem on_receive_eq_buffer_fresh (s : SRReceiverState) (seq ts : Nat)
    (payload : List Nat) (now : Nat)
    (h1 : s.delivered.contains seq = false)
    (h2 : _seq_less_than seq s.rcv_base = false)
    (h3 : _seq_greater_equal seq (s.rcv_base + WINDOW_SIZE) = false)
    (h4 : ¬seq = s.rcv_base)
    (h5 : (s.waiting_since.lookup s.rcv_base).isSome = false) :
    SRReceiver.on_receive s seq ts payload now
      = ({ s with
            rcv_buffer := alist_insert seq
              { payload := payload, timestamp := ts, arrival_time := now }
              s.rcv_buffer,
            waiting_since := alist_insert s.rcv_base now s.waiting_since },
         [], [encode_ack_packet seq ts]) := by
  unfold SRReceiver.on_receive
  rw [h1, h2, h3]
  simp only [Bool.false_eq_true, if_false]
  rw [if_neg (by simp [h4]), if_neg (by rw [h5]; simp)]

theorem check_skip_eq_fire (s : SRReceiverState) (now : Nat)
    (h : (s.waiting_since.lookup s.rcv_base).isSome = true) :
    SRReceiver.check_skip s now
      = _deliver_buffered now
          { s with waiting_since := alist_erase s.rcv_base s.waiting_since,
                   rcv_base := (s.rcv_base + 1) % MAX_SEQ_NUM } := by
  unfold SRReceiver.check_skip
  rw [if_pos h]

theorem check_skip_eq_idle (s : SRReceiverState) (now : Nat)
    (h : (s.waiting_since.lookup s.rcv_base).isSome = false) :
    SRReceiver.check_skip s now = (s, []) := by
  unfold SRReceiver.check_skip
  rw [h]
  simp

theorem getLast?_cons_of_getLast? {α : Type} (a : α) (l : List α) (x : α)
    (h : l.getLast? = some x) : (a :: l).getLast? = some x := by
  cases l with
  | nil => simp at h
  | cons b t => rw [List.getLast?_cons_cons]; exact h

/-- Specification of one `_deliver_buffered` run started at state `s`
whose buffered sequences all lie within `d` of `rcv_base`: the run
delivers the contiguous prefix starting at `rcv_base`, extends
`delivered` accordingly, keeps it duplicate-free, leaves only buffered
sequences strictly ahead of the new `rcv_base`, and only removes
`waiting_since` entries. -/
structure DrainOut (s : SRReceiverState) (d : Nat)
    (r : SRReceiverState × List DeliveryRecord) : Prop where
  base_lt : r.1.rcv_base < MAX_SEQ_NUM
  delivered_eq : r.1.delivered
    = (r.2.map DeliveryRecord.seq_no).reverse ++ s.delivered
  nodup : r.1.delivered.Nodup
  buf_sub : ∀ q pi, r.1.rcv_buffer.lookup q = some pi →
      s.rcv_buffer.lookup q = some pi ∧ q < MAX_SEQ_NUM ∧
      1 ≤ pymod_sub q r.1.rcv_base ∧ pymod_sub q r.1.rcv_base ≤ d
  base_free : r.1.rcv_buffer.lookup r.1.rcv_base = none
  wait_sub : ∀ w, (r.1.waiting_since.lookup w).isSome = true →
      (s.waiting_since.lookup w).isSome = true
  chain : List.Chain' (fun a b => _seq_less_than a b = true)
      (r.2.map DeliveryRecord.seq_no)
  head_eq : ∀ y, (r.2.map DeliveryRecord.seq_no).head? = some y →
      y = s.rcv_base
  last_or : (r.2 = [] ∧ r.1 = s)
      ∨ (∃ l, (r.2.map DeliveryRecord.seq_no).getLast? = some l ∧
          l < MAX_SEQ_NUM ∧ pymod_sub r.1.rcv_base l = 1)
  elems_src : ∀ x, x ∈ r.2.map DeliveryRecord.seq_no →
      ∃ pi, s.rcv_buffer.lookup x = some pi
  fresh_post : ∀ q, (r.1.rcv_buffer.lookup q).isSome = true →
      r.1.delivered.contains q = false

theorem drain_out_id (s : SRReceiverState) (d : Nat)
    (hb : s.rcv_base < MAX_SEQ_NUM)
    (hw : ∀ q pi, s.rcv_buffer.lookup q = some pi →
        q < MAX_SEQ_NUM ∧ pymod_sub q s.rcv_base ≤ d)
    (hf : ∀ q, (s.rcv_buffer.lookup q).isSome = true →
        s.delivered.contains q = false)
    (hn : s.delivered.Nodup)
    (hlook : s.rcv_buffer.lookup s.rcv_base = none) :
    DrainOut s d (s, []) := by
  constructor
  · exact hb
  · simp
  · exact hn
  · intro q pi hq
    obtain ⟨hqM, hqd⟩ := hw q pi hq
    refine ⟨hq, hqM, ?_, hqd⟩
    show 1 ≤ pymod_sub q s.rcv_base
    by_contra hz
    have hz0 : pymod_sub q s.rcv_base = 0 := by omega
    have hqb : q = s.rcv_base := by
      have hqM' : q < 65536 := hqM
      have hbM' : s.rcv_base < 65536 := hb
      have hz0' : (q + 2 * 65536 - s.rcv_base) % 65536 = 0 := hz0
      omega
    rw [hqb, hlook] at hq
    exact Option.noConfusion hq
  · exact hlook
  · intro w hwk
    exact hwk
  · simp
  · intro y hy
    simp at hy
  · exact Or.inl ⟨rfl, rfl⟩
  · intro x hx
    exact absurd hx (by simp)
  · exact hf

theorem deliver_buffered_fuel_spec (now : Nat) :
    ∀ (f : Nat) (s : SRReceiverState) (d : Nat),
    s.rcv_buffer.length ≤ f → s.rcv_base < MAX_SEQ_NUM → d ≤ 31 →
    (∀ q pi, s.rcv_buffer.lookup q = some pi →
        q < MAX_SEQ_NUM ∧ pymod_sub q s.rcv_base ≤ d) →
    (∀ q, (s.rcv_buffer.lookup q).isSome = true →
        s.delivered.contains q = false) →
    s.delivered.Nodup →
    DrainOut s d (deliver_buffered_fuel now f s) := by
  intro f
  induction f with
  | zero =>
    intro s d hlen hb hd hw hf hn
    have hnil : s.rcv_buffer = [] :=
      List.eq_nil_of_length_eq_zero (Nat.le_zero.mp hlen)
    have hlook : s.rcv_buffer.lookup s.rcv_base = none := by rw [hnil]; rfl
    show DrainOut s d (s, [])
    exact drain_out_id s d hb hw hf hn hlook
  | succ f ih =>
    intro s d hlen hb hd hw hf hn
    cases hlook : s.rcv_buffer.lookup s.rcv_base with
    | none =>
      have heq : deliver_buffered_fuel now (f + 1) s = (s, []) := by
        simp only [deliver_buffered_fuel, hlook]
      rw [heq]
      exact drain_out_id s d hb hw hf hn hlook
    | some bp =>
      have hbM : s.rcv_base < 65536 := hb
      have hsome : (s.rcv_buffer.lookup s.rcv_base).isSome = true := by
        rw [hlook]; rfl
      have heq : deliver_buffered_fuel now (f + 1) s
          = ((deliver_buffered_fuel now f
                { s with rcv_base := (s.rcv_base + 1) % MAX_SEQ_NUM,
                         rcv_buffer := alist_erase s.rcv_base s.rcv_buffer,
                         delivered := s.rcv_base :: s.delivered,
                         waiting_since :=
                           alist_erase s.rcv_base s.waiting_since }).1,
             { seq_no := s.rcv_base, payload := bp.payload,
               timestamp := bp.timestamp,
               latency := packet_latency (now % 4294967296) bp.timestamp }
               :: (deliver_buffered_fuel now f
                { s with rcv_base := (s.rcv_base + 1) % MAX_SEQ_NUM,
                         rcv_buffer := alist_erase s.rcv_base s.rcv_buffer,
                         delivered := s.rcv_base :: s.delivered,
                         waiting_since :=
                           alist_erase s.rcv_base s.waiting_since }).2) := by
        simp only [deliver_buffered_fuel, hlook]
        rfl
      rw [heq]
      have hlen2 : (alist_erase s.rcv_base s.rcv_buffer).length ≤ f := by
        have h := alist_erase_length_lt s.rcv_base s.rcv_buffer hsome
        omega
      have hb2 : ((s.rcv_base + 1) % MAX_SEQ_NUM : Nat) < MAX_SEQ_NUM := by
        show (s.rcv_base + 1) % 65536 < 65536
        omega
      have hw2 : ∀ q pi,
          (alist_erase s.rcv_base s.rcv_buffer).lookup q = some pi →
          q < MAX_SEQ_NUM ∧
            pymod_sub q ((s.rcv_base + 1) % MAX_SEQ_NUM) ≤ d - 1 := by
        intro q pi hq
        rw [lookup_alist_erase] at hq
        by_cases hqb : q = s.rcv_base
        · rw [if_pos hqb] at hq
          exact Option.noConfusion hq
        · rw [if_neg hqb] at hq
          obtain ⟨hqM, hqd⟩ := hw q pi hq
          refine ⟨hqM, ?_⟩
          have hqM' : q < 65536 := hqM
          have hqd' : (q + 2 * 65536 - s.rcv_base) % 65536 ≤ d := hqd
          have hqb' : q ≠ s.rcv_base := hqb
          show (q + 2 * 65536 - (s.rcv_base + 1) % 65536) % 65536 ≤ d - 1
          omega
      have hf2 : ∀ q,
          ((alist_erase s.rcv_base s.rcv_buffer).lookup q).isSome = true →
          (s.rcv_base :: s.delivered).contains q = false := by
        intro q hq
        rw [lookup_alist_erase] at hq
        by_cases hqb : q = s.rcv_base
        · rw [if_pos hqb] at hq
          simp at hq
        · rw [if_neg hqb] at hq
          have hqf := hf q hq
          have hbq : (q == s.rcv_base) = false := by simp [hqb]
          rw [List.contains_cons, hbq, hqf]
          rfl
      have hn2 : (s.rcv_base :: s.delivered).Nodup := by
        rw [List.nodup_cons]
        refine ⟨?_, hn⟩
        exact (nat_contains_false_iff _ _).mp (hf s.rcv_base hsome)
      have hout := ih
        { s with rcv_base := (s.rcv_base + 1) % MAX_SEQ_NUM,
                 rcv_buffer := alist_erase s.rcv_base s.rcv_buffer,
                 delivered := s.rcv_base :: s.delivered,
                 waiting_since := alist_erase s.rcv_base s.waiting_since }
        (d - 1) hlen2 hb2 (by omega) hw2 hf2 hn2
      constructor
      · exact hout.base_lt
      · rw [List.map_cons, List.reverse_cons, hout.delivered_eq,
          List.append_assoc]
        rfl
      · exact hout.nodup
      · intro q pi hq
        obtain ⟨hq2, hqM, hq1, hqd⟩ := hout.buf_sub q pi hq
        have hq2' : (alist_erase s.rcv_base s.rcv_buffer).lookup q
            = some pi := hq2
        rw [lookup_alist_erase] at hq2'
        by_cases hqb : q = s.rcv_base
        · rw [if_pos hqb] at hq2'
          exact Option.noConfusion hq2'
        · rw [if_neg hqb] at hq2'
          exact ⟨hq2', hqM, hq1, le_trans hqd (by omega)⟩
      · exact hout.base_free
      · intro w hwk
        have hw' := hout.wait_sub w hwk
        have hw'' : ((alist_erase s.rcv_base s.waiting_since).lookup w).isSome
            = true := hw'
        rw [lookup_alist_erase] at hw''
        by_cases hqb : w = s.rcv_base
        · rw [if_pos hqb] at hw''
          simp at hw''
        · rw [if_neg hqb] at hw''
          exact hw''
      · rw [List.map_cons, List.chain'_cons']
        constructor
        · intro y hy
          have hyb := hout.head_eq y hy
          rw [hyb]
          show _seq_less_than s.rcv_base ((s.rcv_base + 1) % MAX_SEQ_NUM) = true
          unfold _seq_less_than
          apply decide_eq_true
          show (s.rcv_base + 2 * 65536 - (s.rcv_base + 1) % 65536) % 65536
            > 32768
          omega
        · exact hout.chain
      · intro y hy
        rw [List.map_cons] at hy
        simp only [List.head?_cons, Option.some.injEq] at hy
        rw [← hy]
      · right
        rcases hout.last_or with ⟨hre, hrs⟩ | ⟨l, hl, hlM, hld⟩
        · refine ⟨s.rcv_base, ?_, hbM, ?_⟩
          · rw [List.map_cons, hre]
            rfl
          · rw [hrs]
            show ((s.rcv_base + 1) % 65536 + 2 * 65536 - s.rcv_base) % 65536
              = 1
            omega
        · refine ⟨l, ?_, hlM, hld⟩
          rw [List.map_cons]
          exact getLast?_cons_of_getLast? _ _ _ hl
      · intro x hx
        rw [List.map_cons] at hx
        rcases List.mem_cons.mp hx with hxb | hxr
        · rw [hxb]
          exact ⟨bp, hlook⟩
        · obtain ⟨pi, hpi⟩ := hout.elems_src x hxr
          have hpi' : (alist_erase s.rcv_base s.rcv_buffer).lookup x
              = some pi := hpi
          rw [lookup_alist_erase] at hpi'
          by_cases hqb : x = s.rcv_base
          · rw [if_pos hqb] at hpi'
            exact Option.noConfusion hpi'
          · rw [if_neg hqb] at hpi'
            exact ⟨pi, hpi'⟩
      · exact hout.fresh_post

theorem _deliver_buffered_spec (now : Nat) (s : SRReceiverState) (d : Nat)
    (hb : s.rcv_base < MAX_SEQ_NUM) (hd : d ≤ 31)
    (hw : ∀ q pi, s.rcv_buffer.lookup q = some pi →
        q < MAX_SEQ_NUM ∧ pymod_sub q s.rcv_base ≤ d)
    (hf : ∀ q, (s.rcv_buffer.lookup q).isSome = true →
        s.delivered.contains q = false)
    (hn : s.delivered.Nodup) :
    DrainOut s d (_deliver_buffered now s) :=
  deliver_buffered_fuel_spec now s.rcv_buffer.length s d (le_refl _)
    hb hd hw hf hn

theorem getLast?_append_right {α : Type} (l1 l2 : List α) (x : α)
    (h : l2.getLast? = some x) : (l1 ++ l2).getLast? = some x := by
  induction l1 with
  | nil => simpa using h
  | cons a t ih => exact getLast?_cons_of_getLast? a (t ++ l2) x ih

theorem seq_lt_false_le (a b : Nat) (h : _seq_less_than a b = false) :
    pymod_sub a b ≤ 32768 := by
  unfold _seq_less_than at h
  have h2 := of_decide_eq_false h
  have h3 : ¬pymod_sub a b > 32768 := h2
  omega

theorem seq_ge_false_le (a b : Nat) (h : _seq_greater_equal a b = false) :
    32768 ≤ pymod_sub a b := by
  unfold _seq_greater_equal at h
  have h2 := of_decide_eq_false h
  have h3 : ¬pymod_sub a b < 32768 := h2
  omega

theorem in_window_bounds (seq base : Nat) (hseq : seq < 65536)
    (hb : base < 65536) (hlt : pymod_sub seq base ≤ 32768)
    (hge : 32768 ≤ pymod_sub seq (base + 32)) (hne : seq ≠ base) :
    1 ≤ pymod_sub seq base ∧ pymod_sub seq base ≤ 31 := by
  have h1 : (seq + 2 * 65536 - base) % 65536 ≤ 32768 := hlt
  have h2 : 32768 ≤ (seq + 2 * 65536 - (base + 32)) % 65536 := hge
  constructor
  · show 1 ≤ (seq + 2 * 65536 - base) % 65536
    omega
  · show (seq + 2 * 65536 - base) % 65536 ≤ 31
    omega

/-- Inductive invariant of the reliable receiver, tying a reachable
state to the trace of records delivered so far. -/
structure ReceiverInv (s : SRReceiverState) (tr : List DeliveryRecord) :
    Prop where
  base_lt : s.rcv_base < MAX_SEQ_NUM
  buf_window : ∀ q pi, s.rcv_buffer.lookup q = some pi →
      q < MAX_SEQ_NUM ∧ 1 ≤ pymod_sub q s.rcv_base ∧
        pymod_sub q s.rcv_base ≤ 31
  buf_fresh : ∀ q, (s.rcv_buffer.lookup q).isSome = true →
      s.delivered.contains q = false
  delivered_eq : s.delivered = (tr.map DeliveryRecord.seq_no).reverse
  nodup : s.delivered.Nodup
  chain : List.Chain' (fun a b => _seq_less_than a b = true)
      (tr.map DeliveryRecord.seq_no)
  wait_keys : ∀ w, (s.waiting_since.lookup w).isSome = true →
      w = s.rcv_base ∧ ∃ q, (s.rcv_buffer.lookup q).isSome = true
  last_rel : ∀ l, (tr.map DeliveryRecord.seq_no).getLast? = some l →
      l < MAX_SEQ_NUM ∧ 1 ≤ pymod_sub s.rcv_base l ∧
      (pymod_sub s.rcv_base l = 1 ∨
        ∃ q, (s.rcv_buffer.lookup q).isSome = true ∧
          pymod_sub s.rcv_base l < pymod_sub q l ∧ pymod_sub q l ≤ 32)

/-- Invariant preservation when an in-window, out-of-order packet is
buffered: `u` is the post-state (same base, the packet inserted, the
delivered set unchanged, and every live `waiting_since` key equal to
`rcv_base`). -/
theorem receiver_inv_buffer (s u : SRReceiverState)
    (tr : List DeliveryRecord) (seq_no : Nat) (bp : BufferedPacket)
    (ih : ReceiverInv s tr) (hsM : seq_no < MAX_SEQ_NUM)
    (hdel : s.delivered.contains seq_no = false)
    (hwin : 1 ≤ pymod_sub seq_no s.rcv_base ∧
      pymod_sub seq_no s.rcv_base ≤ 31)
    (hub : u.rcv_base = s.rcv_base)
    (hubuf : u.rcv_buffer = alist_insert seq_no bp s.rcv_buffer)
    (hudel : u.delivered = s.delivered)
    (huw : ∀ w, (u.waiting_since.lookup w).isSome = true →
        w = s.rcv_base) :
    ReceiverInv u tr := by
  constructor
  · rw [hub]
    exact ih.base_lt
  · intro q pi hq
    rw [hubuf, lookup_alist_insert] at hq
    rw [hub]
    by_cases hqs : q = seq_no
    · rw [if_pos hqs] at hq
      rw [hqs]
      exact ⟨hsM, hwin.1, hwin.2⟩
    · rw [if_neg hqs] at hq
      exact ih.buf_window q pi hq
  · intro q hq
    rw [hubuf, lookup_alist_insert] at hq
    rw [hudel]
    by_cases hqs : q = seq_no
    · rw [hqs]
      exact hdel
    · rw [if_neg hqs] at hq
      exact ih.buf_fresh q hq
  · rw [hudel]
    exact ih.delivered_eq
  · rw [hudel]
    exact ih.nodup
  · exact ih.chain
  · intro w hw
    refine ⟨by rw [hub]; exact huw w hw, ?_⟩
    refine ⟨seq_no, ?_⟩
    rw [hubuf, lookup_alist_insert, if_pos rfl]
    rfl
  · intro l hl
    obtain ⟨hlM, hl1, hld⟩ := ih.last_rel l hl
    rw [hub]
    refine ⟨hlM, hl1, ?_⟩
    rcases hld with h1 | ⟨q, hqs, hq1, hq2⟩
    · exact Or.inl h1
    · refine Or.inr ⟨q, ?_, hq1, hq2⟩
      rw [hubuf, lookup_alist_insert]
      by_cases hqs2 : q = seq_no
      · rw [if_pos hqs2]
        rfl
      · rw [if_neg hqs2]
        exact hqs

/-- Invariant preservation for an in-order delivery: the packet at
`rcv_base` is delivered (record `rec`), the base advances, the waiting
entry is cleared, and the buffered prefix is drained from post-state
`u`. -/
theorem receiver_inv_deliver (s u : SRReceiverState)
    (tr : List DeliveryRecord) (rec : DeliveryRecord) (now : Nat)
    (ih : ReceiverInv s tr)
    (hrec : rec.seq_no = s.rcv_base)
    (hdel : s.delivered.contains s.rcv_base = false)
    (hub : u.rcv_base = (s.rcv_base + 1) % MAX_SEQ_NUM)
    (hubuf : u.rcv_buffer = s.rcv_buffer)
    (hudel : u.delivered = s.rcv_base :: s.delivered)
    (huw : ∀ w, (u.waiting_since.lookup w).isSome = true → False) :
    ReceiverInv (_deliver_buffered now u).1
      (tr ++ rec :: (_deliver_buffered now u).2) := by
  have hbM : s.rcv_base < 65536 := ih.base_lt
  have hub' : u.rcv_base < MAX_SEQ_NUM := by
    rw [hub]
    show (s.rcv_base + 1) % 65536 < 65536
    omega
  have hw2 : ∀ q pi, u.rcv_buffer.lookup q = some pi →
      q < MAX_SEQ_NUM ∧ pymod_sub q u.rcv_base ≤ 30 := by
    intro q pi hq
    rw [hubuf] at hq
    obtain ⟨hqM, hq1, hq31⟩ := ih.buf_window q pi hq
    refine ⟨hqM, ?_⟩
    rw [hub]
    have hqM' : q < 65536 := hqM
    have e1 : 1 ≤ (q + 2 * 65536 - s.rcv_base) % 65536 := hq1
    have e2 : (q + 2 * 65536 - s.rcv_base) % 65536 ≤ 31 := hq31
    show (q + 2 * 65536 - (s.rcv_base + 1) % 65536) % 65536 ≤ 30
    omega
  have hf2 : ∀ q, (u.rcv_buffer.lookup q).isSome = true →
      u.delivered.contains q = false := by
    intro q hq
    rw [hubuf] at hq
    rw [hudel]
    cases hql : s.rcv_buffer.lookup q with
    | none =>
      rw [hql] at hq
      simp at hq
    | some pi =>
      obtain ⟨hqM, hq1, _⟩ := ih.buf_window q pi hql
      have hqb : ¬q = s.rcv_base := by
        intro he
        have e1 : 1 ≤ (q + 2 * 65536 - s.rcv_base) % 65536 := hq1
        have hqM' : q < 65536 := hqM
        rw [he] at e1
        omega
      have hbq : (q == s.rcv_base) = false := by simp [hqb]
      rw [List.contains_cons, hbq,
        ih.buf_fresh q (by rw [hql]; rfl)]
      rfl
  have hn2 : u.delivered.Nodup := by
    rw [hudel, List.nodup_cons]
    exact ⟨(nat_contains_false_iff _ _).mp hdel, ih.nodup⟩
  have hout := _deliver_buffered_spec now u 30 hub' (by omega) hw2 hf2 hn2
  constructor
  · exact hout.base_lt
  · intro q pi hq
    obtain ⟨hq2, hqM, hq1, hq30⟩ := hout.buf_sub q pi hq
    exact ⟨hqM, hq1, by omega⟩
  · exact hout.fresh_post
  · rw [List.map_append, List.map_cons, hout.delivered_eq, hudel,
      ih.delivered_eq, List.reverse_append, List.reverse_cons,
      List.append_assoc, hrec]
    rfl
  · exact hout.nodup
  · rw [List.map_append, List.map_cons, List.chain'_append]
    refine ⟨ih.chain, ?_, ?_⟩
    · rw [List.chain'_cons']
      refine ⟨?_, hout.chain⟩
      intro y hy
      rw [Option.mem_def] at hy
      have hyb := hout.head_eq y hy
      rw [hyb, hub, hrec]
      unfold _seq_less_than
      apply decide_eq_true
      show (s.rcv_base + 2 * 65536 - (s.rcv_base + 1) % 65536) % 65536 > 32768
      omega
    · intro x hx y hy
      rw [Option.mem_def] at hx hy
      rw [List.head?_cons] at hy
      have hyx : y = rec.seq_no := by
        injection hy with hh
        exact hh.symm
      obtain ⟨hxM, hx1, hxd⟩ := ih.last_rel x hx
      have hD31 : pymod_sub s.rcv_base x ≤ 31 := by
        rcases hxd with h1 | ⟨q, _, hlt2, hle2⟩
        · omega
        · omega
      rw [hyx, hrec]
      unfold _seq_less_than
      apply decide_eq_true
      have e1 : 1 ≤ (s.rcv_base + 2 * 65536 - x) % 65536 := hx1
      have e2 : (s.rcv_base + 2 * 65536 - x) % 65536 ≤ 31 := hD31
      have hxM' : x < 65536 := hxM
      show (x + 2 * 65536 - s.rcv_base) % 65536 > 32768
      omega
  · intro w hwk
    exact (huw w (hout.wait_sub w hwk)).elim
  · intro l hl
    rcases hout.last_or with ⟨hre, hri⟩ | ⟨l2, hl2, hl2M, hl2d⟩
    · rw [List.map_append, List.map_cons, hre] at hl
      have hsingle : (tr.map DeliveryRecord.seq_no
          ++ rec.seq_no :: List.map DeliveryRecord.seq_no []).getLast?
          = some rec.seq_no := by
        exact getLast?_append_right _ _ _ (by simp)
      rw [hsingle] at hl
      have hlb : l = rec.seq_no := by
        injection hl with hh
        exact hh.symm
      rw [hlb, hrec, hri, hub]
      refine ⟨hbM, ?_, Or.inl ?_⟩
      · show 1 ≤ ((s.rcv_base + 1) % 65536 + 2 * 65536 - s.rcv_base) % 65536
        omega
      · show ((s.rcv_base + 1) % 65536 + 2 * 65536 - s.rcv_base) % 65536 = 1
        omega
    · rw [List.map_append, List.map_cons] at hl
      have hlast : (tr.map DeliveryRecord.seq_no ++ rec.seq_no
          :: ((_deliver_buffered now u).2.map DeliveryRecord.seq_no)).getLast?
          = some l2 :=
        getLast?_append_right _ _ _ (getLast?_cons_of_getLast? _ _ _ hl2)
      have hll : l = l2 := Option.some.inj (hl.symm.trans hlast)
      rw [hll]
      exact ⟨hl2M, by omega, Or.inl hl2d⟩

/-- Invariant preservation for a skip: `rcv_base` is abandoned
(advanced by one without delivery), the waiting entry is cleared, and
the buffer is drained from post-state `u`.  The skip fires only when a
`waiting_since` entry exists, which guarantees a buffered packet
(`hq0`). -/
theorem receiver_inv_skip (s u : SRReceiverState) (tr : List DeliveryRecord)
    (now : Nat) (ih : ReceiverInv s tr)
    (hq0 : ∃ q, (s.rcv_buffer.lookup q).isSome = true)
    (hub : u.rcv_base = (s.rcv_base + 1) % MAX_SEQ_NUM)
    (hubuf : u.rcv_buffer = s.rcv_buffer)
    (hudel : u.delivered = s.delivered)
    (huw : ∀ w, (u.waiting_since.lookup w).isSome = true → False) :
    ReceiverInv (_deliver_buffered now u).1
      (tr ++ (_deliver_buffered now u).2) := by
  have hbM : s.rcv_base < 65536 := ih.base_lt
  have hub' : u.rcv_base < MAX_SEQ_NUM := by
    rw [hub]
    show (s.rcv_base + 1) % 65536 < 65536
    omega
  have hw2 : ∀ q pi, u.rcv_buffer.lookup q = some pi →
      q < MAX_SEQ_NUM ∧ pymod_sub q u.rcv_base ≤ 30 := by
    intro q pi hq
    rw [hubuf] at hq
    obtain ⟨hqM, hq1, hq31⟩ := ih.buf_window q pi hq
    refine ⟨hqM, ?_⟩
    rw [hub]
    have hqM' : q < 65536 := hqM
    have e1 : 1 ≤ (q + 2 * 65536 - s.rcv_base) % 65536 := hq1
    have e2 : (q + 2 * 65536 - s.rcv_base) % 65536 ≤ 31 := hq31
    show (q + 2 * 65536 - (s.rcv_base + 1) % 65536) % 65536 ≤ 30
    omega
  have hf2 : ∀ q, (u.rcv_buffer.lookup q).isSome = true →
      u.delivered.contains q = false := by
    intro q hq
    rw [hubuf] at hq
    rw [hudel]
    exact ih.buf_fresh q hq
  have hn2 : u.delivered.Nodup := by
    rw [hudel]
    exact ih.nodup
  have hout := _deliver_buffered_spec now u 30 hub' (by omega) hw2 hf2 hn2
  constructor
  · exact hout.base_lt
  · intro q pi hq
    obtain ⟨hq2, hqM, hq1, hq30⟩ := hout.buf_sub q pi hq
    exact ⟨hqM, hq1, by omega⟩
  · exact hout.fresh_post
  · rw [List.map_append, hout.delivered_eq, hudel, ih.delivered_eq,
      List.reverse_append]
  · exact hout.nodup
  · rw [List.map_append, List.chain'_append]
    refine ⟨ih.chain, hout.chain, ?_⟩
    intro x hx y hy
    rw [Option.mem_def] at hx hy
    have hyb := hout.head_eq y hy
    obtain ⟨hxM, hx1, hxd⟩ := ih.last_rel x hx
    have hD31 : pymod_sub s.rcv_base x ≤ 31 := by
      rcases hxd with h1 | ⟨q, _, l2, l3⟩
      · omega
      · omega
    rw [hyb, hub]
    unfold _seq_less_than
    apply decide_eq_true
    have e1 : 1 ≤ (s.rcv_base + 2 * 65536 - x) % 65536 := hx1
    have e2 : (s.rcv_base + 2 * 65536 - x) % 65536 ≤ 31 := hD31
    have hxM' : x < 65536 := hxM
    show (x + 2 * 65536 - (s.rcv_base + 1) % 65536) % 65536 > 32768
    omega
  · intro w hwk
    exact (huw w (hout.wait_sub w hwk)).elim
  · intro l hl
    rcases hout.last_or with ⟨hre, hri⟩ | ⟨l2, hl2, hl2M, hl2d⟩
    · rw [List.map_append, hre] at hl
      simp only [List.map_nil, List.append_nil] at hl
      obtain ⟨hlM, hl1, hld⟩ := ih.last_rel l hl
      have hfree : s.rcv_buffer.lookup ((s.rcv_base + 1) % MAX_SEQ_NUM)
          = none := by
        have hbf := hout.base_free
        rw [hri, hubuf, hub] at hbf
        exact hbf
      rw [hri, hub]
      have hD31 : pymod_sub s.rcv_base l ≤ 31 := by
        rcases hld with h1 | ⟨q, _, l2, l3⟩
        · omega
        · omega
      have e1 : 1 ≤ (s.rcv_base + 2 * 65536 - l) % 65536 := hl1
      have e2 : (s.rcv_base + 2 * 65536 - l) % 65536 ≤ 31 := hD31
      have hlM' : l < 65536 := hlM
      refine ⟨hlM, ?_, Or.inr ?_⟩
      · show 1 ≤ ((s.rcv_base + 1) % 65536 + 2 * 65536 - l) % 65536
        omega
      · rcases hld with h1 | ⟨q, hqs, hqlt, hqle⟩
        · obtain ⟨q0, hq0s⟩ := hq0
          cases hq0l : s.rcv_buffer.lookup q0 with
          | none =>
            rw [hq0l] at hq0s
            simp at hq0s
          | some pi0 =>
            obtain ⟨h0M, h01, h031⟩ := ih.buf_window q0 pi0 hq0l
            have hq0ne : q0 ≠ (s.rcv_base + 1) % 65536 := by
              intro he
              have hnone : List.lookup ((s.rcv_base + 1) % 65536)
                  s.rcv_buffer = none := hfree
              rw [← he] at hnone
              rw [hnone] at hq0s
              simp at hq0s
            refine ⟨q0, ?_, ?_, ?_⟩
            · rw [hubuf]
              exact hq0s
            · have f1 : 1 ≤ (q0 + 2 * 65536 - s.rcv_base) % 65536 := h01
              have f2 : (q0 + 2 * 65536 - s.rcv_base) % 65536 ≤ 31 := h031
              have hD1 : (s.rcv_base + 2 * 65536 - l) % 65536 = 1 := h1
              have hq0M : q0 < 65536 := h0M
              show ((s.rcv_base + 1) % 65536 + 2 * 65536 - l) % 65536
                < (q0 + 2 * 65536 - l) % 65536
              omega
            · have f1 : 1 ≤ (q0 + 2 * 65536 - s.rcv_base) % 65536 := h01
              have f2 : (q0 + 2 * 65536 - s.rcv_base) % 65536 ≤ 31 := h031
              have hD1 : (s.rcv_base + 2 * 65536 - l) % 65536 = 1 := h1
              have hq0M : q0 < 65536 := h0M
              show (q0 + 2 * 65536 - l) % 65536 ≤ 32
              omega
        · have hqne : q ≠ (s.rcv_base + 1) % 65536 := by
            intro he
            have hnone : List.lookup ((s.rcv_base + 1) % 65536)
                s.rcv_buffer = none := hfree
            rw [← he] at hnone
            rw [hnone] at hqs
            simp at hqs
          have g1 : (s.rcv_base + 2 * 65536 - l) % 65536
              < (q + 2 * 65536 - l) % 65536 := hqlt
          have g2 : (q + 2 * 65536 - l) % 65536 ≤ 32 := hqle
          cases hql2 : s.rcv_buffer.lookup q with
          | none =>
            rw [hql2] at hqs
            simp at hqs
          | some piq =>
            obtain ⟨hqM2, hq12, hq312⟩ := ih.buf_window q piq hql2
            refine ⟨q, ?_, ?_, ?_⟩
            · rw [hubuf]
              exact hqs
            · have hv1 : 1 ≤ (q + 2 * 65536 - s.rcv_base) % 65536 := hq12
              have hv2 : (q + 2 * 65536 - s.rcv_base) % 65536 ≤ 31 := hq312
              have hqM2' : q < 65536 := hqM2
              show ((s.rcv_base + 1) % 65536 + 2 * 65536 - l) % 65536
                < (q + 2 * 65536 - l) % 65536
              omega
            · exact hqle
    · rw [List.map_append] at hl
      have hlast := getLast?_append_right (tr.map DeliveryRecord.seq_no) _ _ hl2
      have hll : l = l2 := Option.some.inj (hl.symm.trans hlast)
      rw [hll]
      exact ⟨hl2M, by omega, Or.inl hl2d⟩

/-- Every receiver execution maintains `ReceiverInv`. -/
theorem receiver_trace_inv (s : SRReceiverState) (tr : List DeliveryRecord)
    (h : SRReceiverTrace s tr) : ReceiverInv s tr := by
  induction h with
  | init =>
    constructor
    · show (0 : Nat) < MAX_SEQ_NUM
      decide
    · intro q pi hq
      exact Option.noConfusion hq
    · intro q hq
      simp [List.lookup] at hq
    · rfl
    · exact List.nodup_nil
    · simp
    · intro w hw
      simp [List.lookup] at hw
    · intro l hl
      simp at hl
  | recv s tr h seq_no timestamp payload now hseq ih =>
    have hbM : s.rcv_base < 65536 := ih.base_lt
    have hsM : seq_no < 65536 := hseq
    cases hdel : s.delivered.contains seq_no with
    | true =>
      rw [on_receive_eq_dup s seq_no timestamp payload now hdel]
      show ReceiverInv s (tr ++ [])
      rw [List.append_nil]
      exact ih
    | false =>
      cases hlt : _seq_less_than seq_no s.rcv_base with
      | true =>
        rw [on_receive_eq_below s seq_no timestamp payload now hdel hlt]
        show ReceiverInv s (tr ++ [])
        rw [List.append_nil]
        exact ih
      | false =>
        cases hge : _seq_greater_equal seq_no (s.rcv_base + WINDOW_SIZE) with
        | true =>
          rw [on_receive_eq_above s seq_no timestamp payload now hdel hlt hge]
          show ReceiverInv s (tr ++ [])
          rw [List.append_nil]
          exact ih
        | false =>
          have hlt' := seq_lt_false_le seq_no s.rcv_base hlt
          have hge' : 32768 ≤ pymod_sub seq_no (s.rcv_base + 32) :=
            seq_ge_false_le seq_no (s.rcv_base + WINDOW_SIZE) hge
          by_cases hqb : seq_no = s.rcv_base
          · rw [on_receive_eq_inorder s seq_no timestamp payload now
              hdel hlt hge hqb]
            rw [hqb] at hdel ⊢
            apply receiver_inv_deliver s _ tr _ now ih
            · rfl
            · exact hdel
            · rfl
            · rfl
            · rfl
            · intro w hw
              have hw' : ((alist_erase s.rcv_base s.waiting_since).lookup
                  w).isSome = true := hw
              rw [lookup_alist_erase] at hw'
              by_cases hwbq : w = s.rcv_base
              · rw [if_pos hwbq] at hw'
                simp at hw'
              · rw [if_neg hwbq] at hw'
                exact hwbq (ih.wait_keys w hw').1
          · have hwin := in_window_bounds seq_no s.rcv_base hsM hbM
              hlt' hge' hqb
            cases hwk : (s.waiting_since.lookup s.rcv_base).isSome with
            | true =>
              rw [on_receive_eq_buffer_waiting s seq_no timestamp payload
                now hdel hlt hge hqb hwk]
              show ReceiverInv _ (tr ++ [])
              rw [List.append_nil]
              apply receiver_inv_buffer s _ tr seq_no
                { payload := payload, timestamp := timestamp,
                  arrival_time := now } ih hseq hdel hwin
              · rfl
              · rfl
              · rfl
              · intro w hw
                exact (ih.wait_keys w hw).1
            | false =>
              rw [on_receive_eq_buffer_fresh s seq_no timestamp payload
                now hdel hlt hge hqb hwk]
              show ReceiverInv _ (tr ++ [])
              rw [List.append_nil]
              apply receiver_inv_buffer s _ tr seq_no
                { payload := payload, timestamp := timestamp,
                  arrival_time := now } ih hseq hdel hwin
              · rfl
              · rfl
              · rfl
              · intro w hw
                have hw' : ((alist_insert s.rcv_base now
                    s.waiting_since).lookup w).isSome = true := hw
                rw [lookup_alist_insert] at hw'
                by_cases hwbq : w = s.rcv_base
                · exact hwbq
                · rw [if_neg hwbq] at hw'
                  exact (ih.wait_keys w hw').1
  | skip s tr h now ih =>
    cases hwk : (s.waiting_since.lookup s.rcv_base).isSome with
    | false =>
      rw [check_skip_eq_idle s now hwk]
      show ReceiverInv s (tr ++ [])
      rw [List.append_nil]
      exact ih
    | true =>
      rw [check_skip_eq_fire s now hwk]
      obtain ⟨hwb, hq0⟩ := ih.wait_keys s.rcv_base hwk
      apply receiver_inv_skip s _ tr now ih hq0
      · rfl
      · rfl
      · rfl
      · intro w hw
        have hw' : ((alist_erase s.rcv_base s.waiting_since).lookup
            w).isSome = true := hw
        rw [lookup_alist_erase] at hw'
        by_cases hwbq : w = s.rcv_base
        · rw [if_pos hwbq] at hw'
          simp at hw'
        · rw [if_neg hwbq] at hw'
          exact hwbq (ih.wait_keys w hw').1

/-! ## Claims C1 and C7 about the receiver -/

/-- **C1.** For every execution of the reliable receiver — any
interleaving of `on_receive` calls and skip-timer firings — the
sequence numbers delivered upward are strictly increasing under the
modular comparator (`_seq_less_than s_i s_(i+1)` for every consecutive
pair), and no sequence number is delivered more than once. -/
theorem receiver_delivery_order (s : SRReceiverState)
    (tr : List DeliveryRecord) (h : SRReceiverTrace s tr) :
    List.Chain' (fun a b => _seq_less_than a b = true)
      (tr.map DeliveryRecord.seq_no)
    ∧ (tr.map DeliveryRecord.seq_no).Nodup := by
  have hinv := receiver_trace_inv s tr h
  refine ⟨hinv.chain, ?_⟩
  have hnd := hinv.nodup
  rw [hinv.delivered_eq] at hnd
  exact List.nodup_reverse.mp hnd

/-- Witness for `receiver_delivery_order` on the one-step execution
that receives sequence 0 and delivers it. -/
theorem receiver_delivery_order_witness :
    List.Chain' (fun a b => _seq_less_than a b = true)
      ((([] : List DeliveryRecord)
        ++ (SRReceiver.on_receive initSRReceiver 0 5 [1] 7).2.1).map
          DeliveryRecord.seq_no)
    ∧ ((([] : List DeliveryRecord)
        ++ (SRReceiver.on_receive initSRReceiver 0 5 [1] 7).2.1).map
          DeliveryRecord.seq_no).Nodup :=
  receiver_delivery_order _ _
    (SRReceiverTrace.recv initSRReceiver [] SRReceiverTrace.init 0 5 [1] 7
      (by decide))

/-- **C7.** Classification of an incoming reliable DATA packet, in the
priority order the source checks: an already-delivered sequence is
re-ACKed with no delivery and no state change; a sequence below
`rcv_base` (and not delivered) likewise; a sequence at or above
`rcv_base + W` (failing the first two tests) is discarded silently
with no ACK and no state change; and every in-window arrival is ACKed
(only these can deliver or buffer, since the other three cases return
the state unchanged with no deliveries). -/
theorem on_receive_classification (s : SRReceiverState) (seq ts : Nat)
    (payload : List Nat) (now : Nat) :
    (s.delivered.contains seq = true →
        SRReceiver.on_receive s seq ts payload now
          = (s, [], [encode_ack_packet seq ts]))
    ∧ (s.delivered.contains seq = false →
        _seq_less_than seq s.rcv_base = true →
        SRReceiver.on_receive s seq ts payload now
          = (s, [], [encode_ack_packet seq ts]))
    ∧ (s.delivered.contains seq = false →
        _seq_less_than seq s.rcv_base = false →
        _seq_greater_equal seq (s.rcv_base + WINDOW_SIZE) = true →
        SRReceiver.on_receive s seq ts payload now = (s, [], []))
    ∧ (s.delivered.contains seq = false →
        _seq_less_than seq s.rcv_base = false →
        _seq_greater_equal seq (s.rcv_base + WINDOW_SIZE) = false →
        (SRReceiver.on_receive s seq ts payload now).2.2
          = [encode_ack_packet seq ts]) := by
  refine ⟨?_, ?_, ?_, ?_⟩
  · intro h1
    exact on_receive_eq_dup s seq ts payload now h1
  · intro h1 h2
    exact on_receive_eq_below s seq ts payload now h1 h2
  · intro h1 h2 h3
    exact on_receive_eq_above s seq ts payload now h1 h2 h3
  · intro h1 h2 h3
    by_cases hqb : seq = s.rcv_base
    · rw [on_receive_eq_inorder s seq ts payload now h1 h2 h3 hqb]
    · cases hwk : (s.waiting_since.lookup s.rcv_base).isSome with
      | true =>
        rw [on_receive_eq_buffer_waiting s seq ts payload now h1 h2 h3
          hqb hwk]
      | false =>
        rw [on_receive_eq_buffer_fresh s seq ts payload now h1 h2 h3
          hqb hwk]

/-- Witness for `on_receive_classification` at a concrete state and
packet. -/
theorem on_receive_classification_witness :
    (initSRReceiver.delivered.contains 3 = true →
        SRReceiver.on_receive initSRReceiver 3 5 [2] 9
          = (initSRReceiver, [], [encode_ack_packet 3 5]))
    ∧ (initSRReceiver.delivered.contains 3 = false →
        _seq_less_than 3 initSRReceiver.rcv_base = true →
        SRReceiver.on_receive initSRReceiver 3 5 [2] 9
          = (initSRReceiver, [], [encode_ack_packet 3 5]))
    ∧ (initSRReceiver.delivered.contains 3 = false →
        _seq_less_than 3 initSRReceiver.rcv_base = false →
        _seq_greater_equal 3 (initSRReceiver.rcv_base + WINDOW_SIZE)
          = true →
        SRReceiver.on_receive initSRReceiver 3 5 [2] 9
          = (initSRReceiver, [], []))
    ∧ (initSRReceiver.delivered.contains 3 = false →
        _seq_less_than 3 initSRReceiver.rcv_base = false →
        _seq_greater_equal 3 (initSRReceiver.rcv_base + WINDOW_SIZE)
          = false →
        (SRReceiver.on_receive initSRReceiver 3 5 [2] 9).2.2
          = [encode_ack_packet 3 5]) :=
  on_receive_classification initSRReceiver 3 5 [2] 9
